import Mathlib

/-!
# KalmanAlignmentAlgorithm: orchestration and life-cycle

A shallow embedding of `src/src/KalmanAlignmentAlgorithm.cc` (methods `initialize`,
`terminate`, `run`, `initializeAlignmentParameters`) and of the accessors of
`src/interface/KalmanAlignmentTrackingSetup.h`.

Conventions of the embedding.

* Pointers are natural numbers (addresses).  `std::map< K*, V >` and `std::set< K* >`
  iterate in ascending address order and are embedded as address-sorted lists.
* Objects owned through a pointer (the `AlignmentParameters` of an `Alignable`, the
  `UserVariables` of an `AlignmentParameters`) are embedded as nested values.
* `double` quantities are exact rationals; `sqrt` and the geometry operations are
  collaborators passed in as functions.
* Collaborators that live outside the source file are fields of `Collaborators`;
  those that can mutate shared state take and return the `Heap`.
* Calls to collaborators are recorded as `Event`s, in program order, and so are the
  lines that `run` and `terminate` write to `cout`; the lines printed during the
  initialization are left out.
-/

namespace KalmanAlignment

/-! ## Data model -/

/-- Framework failure, the embedding of `cms::Exception`: a category and a message. -/
structure Failure where
  category : String
  message : String
deriving DecidableEq, Repr

/-- Result of a call that may raise a framework failure. -/
inductive Raised (α : Type) where
  | ok (value : α)
  | error (failure : Failure)
deriving DecidableEq, Repr

/-- The failure carried by a result, if any. -/
def Raised.failure? {α : Type} : Raised α → Option Failure
  | .ok _ => none
  | .error e => some e

/-- Tracklet as seen by `run`: its producing setup (a pointer), its trajectory/track
pair and its external prediction. -/
structure Tracklet where
  trackingSetup : Nat
  trajTrackPair : Nat
  externalPrediction : Nat
deriving DecidableEq, Repr

/-- The members of `KalmanAlignmentTrackingSetup` that the algorithm reads. -/
structure KalmanAlignmentTrackingSetup where
  theId : String
  theTrajectoryFactory : Nat
  theAlignmentUpdator : Nat
  theMetricsUpdator : Nat
deriving DecidableEq, Repr

namespace KalmanAlignmentTrackingSetup

/-- Accessor `id()`. -/
def id (s : KalmanAlignmentTrackingSetup) : String := s.theId

/-- Accessor `trajectoryFactory()`. -/
def trajectoryFactory (s : KalmanAlignmentTrackingSetup) : Nat := s.theTrajectoryFactory

/-- Accessor `alignmentUpdator()`. -/
def alignmentUpdator (s : KalmanAlignmentTrackingSetup) : Nat := s.theAlignmentUpdator

/-- Accessor `metricsUpdator()`. -/
def metricsUpdator (s : KalmanAlignmentTrackingSetup) : Nat := s.theMetricsUpdator

end KalmanAlignmentTrackingSetup

/-- Reference trajectory: its address and its hits. -/
structure ReferenceTrajectory where
  address : Nat
  recHits : List Nat
deriving DecidableEq, Repr

/-- Modelled from the spec: the per-module bookkeeping class
`KalmanAlignmentUserVariables` (its header and implementation are not among the
sources).  It tracks the number of updates applied, the alignment flag and the
accumulated statistics. -/
structure KalmanAlignmentUserVariables where
  parentAlignable : Nat
  updateGraph : Int
  theNumberOfUpdates : Int
  theAlignmentFlag : Bool
  history : List (List ℚ)
deriving DecidableEq, Repr

namespace KalmanAlignmentUserVariables

/-- Accessor `numberOfUpdates()`. -/
def numberOfUpdates (u : KalmanAlignmentUserVariables) : Int := u.theNumberOfUpdates

/-- Setter `setAlignmentFlag( flag )`. -/
def setAlignmentFlag (u : KalmanAlignmentUserVariables) (flag : Bool) :
    KalmanAlignmentUserVariables :=
  { u with theAlignmentFlag := flag }

end KalmanAlignmentUserVariables

/-- User variables attached to alignment parameters; `dynamic_cast` to
`KalmanAlignmentUserVariables*` succeeds exactly on `kalman`. -/
inductive UserVariables where
  | kalman (uv : KalmanAlignmentUserVariables)
  | foreign (tag : Nat)
deriving DecidableEq, Repr

/-- Dynamic type of an `AlignmentParameters` object; `dynamic_cast` to
`RigidBodyAlignmentParameters*` succeeds exactly on `rigidBody`. -/
inductive ParametersKind where
  | rigidBody
  | otherKind (tag : Nat)
deriving DecidableEq, Repr

/-- Alignment parameters: parameter vector, covariance, attached user variables. -/
structure AlignmentParameters where
  kind : ParametersKind
  alignable : Nat
  parameters : List ℚ
  covariance : List (List ℚ)
  userVariables : Option UserVariables
deriving DecidableEq, Repr

namespace AlignmentParameters

/-- Method `clone( parameters, covariance )`: a new object of the same dynamic type for
the same alignable, carrying the given vector and matrix and a copy of the user
variables. -/
def clone (p : AlignmentParameters) (par : List ℚ) (cov : List (List ℚ)) :
    AlignmentParameters :=
  { p with parameters := par, covariance := cov }

/-- Method `setUserVariables( uv )`. -/
def setUserVariables (p : AlignmentParameters) (uv : UserVariables) : AlignmentParameters :=
  { p with userVariables := some uv }

/-- The result of `dynamic_cast< KalmanAlignmentUserVariables* >( userVariables() )`. -/
def kalmanUserVariables (p : AlignmentParameters) : Option KalmanAlignmentUserVariables :=
  match p.userVariables with
  | some (.kalman uv) => some uv
  | _ => none

end AlignmentParameters

/-- State of one alignable (detector module): the coordinates of its surface, its
parameter slot (`none` is the null pointer) and its alignment position error. -/
structure AlignableState where
  surface : List ℚ
  alignmentParameters : Option AlignmentParameters
  alignmentPositionError : Option (List ℚ)
deriving DecidableEq, Repr

/-- Shared mutable state: the alignables (by address), the alignables recorded by each
metrics updator (by address of the updator), and the state of everything else the
collaborators keep (files, caches), encoded as a number. -/
structure Heap where
  alignables : Nat → AlignableState
  metricsAlignables : Nat → List Nat
  external : Nat

namespace Heap

/-- Replace the state of the alignable at address `a`. -/
def setAlignable (h : Heap) (a : Nat) (s : AlignableState) : Heap :=
  { h with alignables := fun b => if b = a then s else h.alignables b }

/-- Method `Alignable::alignmentParameters()` of the alignable at `a`. -/
def alignmentParameters (h : Heap) (a : Nat) : Option AlignmentParameters :=
  (h.alignables a).alignmentParameters

/-- Method `Alignable::setAlignmentParameters( p )` of the alignable at `a`. -/
def setAlignmentParameters (h : Heap) (a : Nat) (p : AlignmentParameters) : Heap :=
  h.setAlignable a { h.alignables a with alignmentParameters := some p }

end Heap

/-! ## Events -/

/-- Observable actions, in program order. -/
inductive Event where
  | coutEventNr (iEvent : Nat)
  | refitTracks (eventSetup : Nat) (tracks : List Nat) (result : Raised (List Tracklet))
  | trajectories (factory : Nat) (eventSetup : Nat) (tracklets : List Nat)
      (external : List Nat) (result : Raised (List ReferenceTrajectory))
  | process (updator : Nat) (trajectory : ReferenceTrajectory) (store : Nat)
      (navigator : Nat) (metrics : Nat) (result : Raised Unit)
  | fillHistogram (name : String) (value : Nat)
  | coutException (what : Failure)
  | coutTerminateStart
  | coutMetricsHolds (setupId : String) (size : Nat)
  | update (alignable : Nat) (enforceUpdate : Bool)
  | histogramParameters (alignable : Nat) (histogramName : String)
  | coutWriteData (size : Nat)
  | writeAlignmentParameters (alignables : List Nat) (file : String) (iteration : Int)
      (validCheck : Bool) (ierr : Int)
  | dataCollectorWrite
  | timingDumpCout
  | timingDumpFile (file : String)
  | deleteNavigator (pointer : Nat)
  | coutTerminateDone
  | newNavigator (pointer : Nat)
  | newSelector
  | newRefitter (navigator : Nat)
  | dataCollectorConfigure
  | setTheSeed (seed : Int)
  | move (alignable : Nat) (globalShift : List ℚ)
  | rotateInLocalFrame (alignable : Nat) (rotation : List ℚ)
  | rotateAroundGlobalZ (alignable : Nat) (angle : ℚ)
  | setAlignmentPositionError (alignable : Nat) (ape : List ℚ)
  | setAlignmentParameters (alignable : Nat) (parameters : AlignmentParameters)
  | readAlignmentParameters (alignables : List Nat) (file : String) (iteration : Nat)
      (size : Nat) (ierr : Int)
  | setAlignmentFlag (alignable : Nat) (flag : Bool)
deriving DecidableEq, Repr

/-! ## Ordered containers -/

/-- The statement `m[k].push_back( v )` on a `std::map` whose values are vectors: the
map is the list of its entries in ascending key order. -/
def mapPushBack {α : Type} (k : Nat) (v : α) : List (Nat × List α) → List (Nat × List α)
  | [] => [(k, [v])]
  | (k1, vs) :: rest =>
    if k < k1 then (k, [v]) :: (k1, vs) :: rest
    else if k = k1 then (k1, vs ++ [v]) :: rest
    else (k1, vs) :: mapPushBack k v rest

/-- The call `m.find( k )`: the vector stored at `k`, `none` for `m.end()`. -/
def mapFind {α : Type} (k : Nat) : List (Nat × List α) → Option (List α)
  | [] => none
  | (k1, vs) :: rest => if k = k1 then some vs else mapFind k rest

/-- The call `s.insert( k )` on a `std::set`: the set is the list of its elements in
ascending order. -/
def setInsert (k : Nat) : List Nat → List Nat
  | [] => [k]
  | k1 :: rest =>
    if k < k1 then k :: k1 :: rest
    else if k = k1 then k1 :: rest
    else k1 :: setInsert k rest

/-- The call `s.insert( first, last )` on a `std::set`. -/
def setInsertRange (s : List Nat) (range : List Nat) : List Nat :=
  range.foldl (fun acc k => setInsert k acc) s

/-! ## Configuration -/

/-- The call `getUntrackedParameter< T >( name, default )`: the configured value, or the
default when the parameter is absent. -/
def getUntrackedParameter {α : Type} (configured : Option α) (default : α) : α :=
  configured.getD default

/-- Parameter set of one initialization rule. -/
structure RuleConfiguration where
  SigmaXShifts : Option ℚ
  SigmaYShifts : Option ℚ
  SigmaZShifts : Option ℚ
  SigmaXRotations : Option ℚ
  SigmaYRotations : Option ℚ
  SigmaZRotations : Option ℚ
  XShiftsStartError : Option ℚ
  YShiftsStartError : Option ℚ
  ZShiftsStartError : Option ℚ
  XRotationsStartError : Option ℚ
  YRotationsStartError : Option ℚ
  ZRotationsStartError : Option ℚ
  AlignableSelection : List String
  ReadParametersFromFile : Option Bool
  ReadCovarianceFromFile : Option Bool
  ApplyParametersFromFile : Option Bool
  ApplyErrorFromFile : Option Bool
  FileName : Option String

/-- Parameter set `Initialization`. -/
structure InitializationConfiguration where
  UpdateGraphs : Option Int
  AddPositionError : Option Bool
  RandomSeed : Option Int
  ApplyXShifts : Option Bool
  ApplyYShifts : Option Bool
  ApplyZShifts : Option Bool
  ApplyXRotations : Option Bool
  ApplyYRotations : Option Bool
  ApplyZRotations : Option Bool
  ApplyRandomStartValues : Option Bool
  ApplyCurl : Option Bool
  CurlConstant : Option ℚ
  InitializationSelector : List String
  rule : String → RuleConfiguration

/-- The configuration of the algorithm (`theConfiguration`). -/
structure Configuration where
  WriteAlignmentParameters : Option Bool
  OutputFile : String
  TimingLogFile : Option String
  Initialization : InitializationConfiguration

/-! ## Collaborators and algorithm state -/

/-- Collaborators of `run` and `terminate`: the tracking setups held by the refitter,
the refitter, the trajectory factories, the alignment updators, the enforced
bookkeeping update `update( true )` and the snapshot writer. -/
structure Collaborators where
  setupAt : Nat → KalmanAlignmentTrackingSetup
  getTrackingSetups : List Nat
  refitTracks : Nat → List Nat → Heap → Heap × Raised (List Tracklet)
  trajectories : Nat → Nat → List Nat → List Nat → Heap →
    Heap × Raised (List ReferenceTrajectory)
  process : Nat → ReferenceTrajectory → Nat → Nat → Nat → Heap → Heap × Raised Unit
  updateEnforced : KalmanAlignmentUserVariables → KalmanAlignmentUserVariables
  writeAlignmentParameters : List Nat → String → Int → Bool → Heap → Heap × Int

/-- Data members of `KalmanAlignmentAlgorithm`, and the function-local static `iEvent`
of `run`. -/
structure KalmanAlignmentAlgorithm where
  theConfiguration : Configuration
  theParameterStore : Nat
  theNavigator : Nat
  theSelector : List String
  iEvent : Nat

/-! ## terminate -/

/-- First loop of `terminate`: the union of the alignables held by the metrics updators
of all tracking setups, together with the lines printed. -/
def collectAlignables (c : Collaborators) (h : Heap) :
    List Nat → List Nat → List Nat × List Event
  | [], allAlignables => (allAlignables, [])
  | itSetup :: rest, allAlignables =>
    let alignablesFromMetrics := h.metricsAlignables (c.setupAt itSetup).metricsUpdator
    let r := collectAlignables c h rest (setInsertRange allAlignables alignablesFromMetrics)
    (r.1, Event.coutMetricsHolds (c.setupAt itSetup).id alignablesFromMetrics.length :: r.2)

/-- The set `allAlignables` of `terminate`. -/
def allAlignables (c : Collaborators) (h : Heap) : List Nat :=
  (collectAlignables c h c.getTrackingSetups []).1

/-- Second loop of `terminate`, over the set of alignables: returns the heap, the
events and the vector `alignablesToWrite`. -/
def finalizeAlignables (c : Collaborators) : List Nat → Heap → Heap × List Event × List Nat
  | [], h => (h, [], [])
  | it :: rest, h =>
    match h.alignmentParameters it with
    | none => finalizeAlignables c rest h
    | some alignmentParameters =>
      match alignmentParameters.kalmanUserVariables with
      | none => finalizeAlignables c rest h
      | some userVariables =>
        if userVariables.numberOfUpdates > 0 then
          let h1 := h.setAlignmentParameters it
            (alignmentParameters.setUserVariables (.kalman (c.updateEnforced userVariables)))
          let r := finalizeAlignables c rest h1
          (r.1, Event.update it true ::
            Event.histogramParameters it "KalmanAlignmentAlgorithm" :: r.2.1, it :: r.2.2)
        else finalizeAlignables c rest h

/-- The vector `alignablesToWrite` built by `terminate` on heap `h`. -/
def alignablesToWrite (c : Collaborators) (h : Heap) : List Nat :=
  (finalizeAlignables c (allAlignables c h) h).2.2

/-- The block of `terminate` guarded by `WriteAlignmentParameters`. -/
def writeParameters (c : Collaborators) (cfg : Configuration) (toWrite : List Nat)
    (h : Heap) : Heap × List Event :=
  if getUntrackedParameter cfg.WriteAlignmentParameters false then
    let output := cfg.OutputFile
    let w1 := c.writeAlignmentParameters toWrite output 1 false h
    let e1 := Event.writeAlignmentParameters toWrite output 1 false w1.2
    if w1.2 = -1 then
      let w2 := c.writeAlignmentParameters toWrite output (-1) false w1.1
      (w2.1, [Event.coutWriteData toWrite.length, e1,
        Event.writeAlignmentParameters toWrite output (-1) false w2.2])
    else (w1.1, [Event.coutWriteData toWrite.length, e1])
  else (h, [])

/-- Method `KalmanAlignmentAlgorithm::terminate`. -/
def terminate (c : Collaborators) (alg : KalmanAlignmentAlgorithm) (h : Heap) :
    Heap × List Event :=
  let collected := collectAlignables c h c.getTrackingSetups []
  let finalized := finalizeAlignables c collected.1 h
  let written := writeParameters c alg.theConfiguration finalized.2.2 finalized.1
  let timingLogFile := getUntrackedParameter alg.theConfiguration.TimingLogFile "timing.log"
  (written.1,
    [Event.coutTerminateStart] ++ collected.2 ++ finalized.2.1 ++ written.2 ++
    [Event.dataCollectorWrite, Event.timingDumpCout, Event.timingDumpFile timingLogFile,
     Event.deleteNavigator alg.theNavigator, Event.coutTerminateDone])

/-! ## run -/

/-- Outcome of a block that may raise: the heap, the events produced and the result. -/
structure Outcome where
  heap : Heap
  events : List Event
  result : Raised Unit

/-- Innermost loop of `run`: feed the trajectories of the setup at `itMap` to its
alignment updator, in order. -/
def processTrajectories (c : Collaborators) (alg : KalmanAlignmentAlgorithm) (itMap : Nat) :
    List ReferenceTrajectory → Heap → Outcome
  | [], h => ⟨h, [], .ok ()⟩
  | itTrajectories :: rest, h =>
    let setup := c.setupAt itMap
    let p := c.process setup.alignmentUpdator itTrajectories alg.theParameterStore
      alg.theNavigator setup.metricsUpdator h
    let call := Event.process setup.alignmentUpdator itTrajectories alg.theParameterStore
      alg.theNavigator setup.metricsUpdator p.2
    match p.2 with
    | .error e => ⟨p.1, [call], .error e⟩
    | .ok _ =>
      let r := processTrajectories c alg itMap rest p.1
      ⟨r.heap, call :: Event.fillHistogram "Trajectory_RecHits" itTrajectories.recHits.length ::
        r.events, r.result⟩

/-- Loop of `run` over the entries of `setupToTrackletMap`. -/
def processSetups (c : Collaborators) (alg : KalmanAlignmentAlgorithm) (eventSetup : Nat) :
    List (Nat × List Tracklet) → Heap → Outcome
  | [], h => ⟨h, [], .ok ()⟩
  | (itMap, group) :: rest, h =>
    let tracklets := group.map (fun t => t.trajTrackPair)
    let external := group.map (fun t => t.externalPrediction)
    let factory := (c.setupAt itMap).trajectoryFactory
    let f := c.trajectories factory eventSetup tracklets external h
    let call := Event.trajectories factory eventSetup tracklets external f.2
    match f.2 with
    | .error e => ⟨f.1, [call], .error e⟩
    | .ok trajectories =>
      let u := processTrajectories c alg itMap trajectories f.1
      match u.result with
      | .error e => ⟨u.heap, call :: u.events, .error e⟩
      | .ok _ =>
        let r := processSetups c alg eventSetup rest u.heap
        ⟨r.heap, call :: (u.events ++ r.events), r.result⟩

/-- The map `setupToTrackletMap` built from the refitted tracklets. -/
def setupToTrackletMap (refittedTracklets : List Tracklet) : List (Nat × List Tracklet) :=
  refittedTracklets.foldl (fun m t => mapPushBack t.trackingSetup t m) []

/-- The `try` block of `run`. -/
def runBody (c : Collaborators) (alg : KalmanAlignmentAlgorithm) (eventSetup : Nat)
    (tracks : List Nat) (h : Heap) : Outcome :=
  let r := c.refitTracks eventSetup tracks h
  let call := Event.refitTracks eventSetup tracks r.2
  match r.2 with
  | .error e => ⟨r.1, [call], .error e⟩
  | .ok refittedTracklets =>
    let u := processSetups c alg eventSetup (setupToTrackletMap refittedTracklets) r.1
    ⟨u.heap, call :: u.events, u.result⟩

/-- The lines printed by `run` before the `try` block. -/
def eventBanner (alg : KalmanAlignmentAlgorithm) : List Event :=
  if alg.iEvent % 500 = 0 then [Event.coutEventNr alg.iEvent] else []

/-- Method `KalmanAlignmentAlgorithm::run`: returns the algorithm (with `iEvent`
advanced) and the outcome; a caught failure runs `terminate` and is thrown again. -/
def run (c : Collaborators) (alg : KalmanAlignmentAlgorithm) (eventSetup : Nat)
    (tracks : List Nat) (h : Heap) : KalmanAlignmentAlgorithm × Outcome :=
  let alg1 := { alg with iEvent := alg.iEvent + 1 }
  let body := runBody c alg1 eventSetup tracks h
  match body.result with
  | .ok _ => (alg1, ⟨body.heap, eventBanner alg ++ body.events, .ok ()⟩)
  | .error exception =>
    let t := terminate c alg1 body.heap
    (alg1, ⟨t.1, eventBanner alg ++ body.events ++ [Event.coutException exception] ++ t.2,
      .error exception⟩)

/-! ## initializeAlignmentParameters -/

/-- Collaborators of the initialization, apart from the alignable selector (which is
passed on its own as `selectedAlignables`, the function from the selections added so
far to the vector returned by `theSelector->selectedAlignables()`): the comparator
`KalmanAlignmentAlgorithm::operator()` used by `sort` (declared in a header that is not
among the sources), the seeded Gaussian stream (`gauss seed n` is the value returned by
the `n`-th call of `RandGauss::shoot()` after `setTheSeed( seed )`), the snapshot
reader, square root, the geometry of the alignables and the bookkeeping class. -/
structure InitCollaborators where
  less : Nat → Nat → Bool
  gauss : Int → Nat → ℚ
  readAlignmentParameters : List Nat → String → Nat → List AlignmentParameters × Int
  sqrt : ℚ → ℚ
  toGlobal : List ℚ → List ℚ → List ℚ
  toMatrix : List ℚ → List ℚ
  perp : List ℚ → ℚ
  move : Nat → List ℚ → (Nat → List ℚ) → Nat → List ℚ
  rotateInLocalFrame : Nat → List ℚ → (Nat → List ℚ) → Nat → List ℚ
  rotateAroundGlobalZ : Nat → ℚ → (Nat → List ℚ) → Nat → List ℚ
  createUserVariables : Nat → Int → KalmanAlignmentUserVariables
  updateFrom : AlignmentParameters → KalmanAlignmentUserVariables →
    KalmanAlignmentUserVariables

/-- How a part of the initialization ends: normally, by a thrown `cms::Exception`, by
an access through the null parameter slot of an alignable, or (for the embedding of the
read loop) without the reader having reported the end of the snapshots within the
allowed number of reads. -/
inductive InitResult (α : Type) where
  | ok (value : α)
  | raised (failure : Failure)
  | nullAccess (alignable : Nat)
  | unfinished

/-- State threaded through the initialization: the heap, the seed and the number of
`RandGauss::shoot()` calls made since seeding, the selections added to `theSelector`,
and the events so far. -/
structure InitState where
  heap : Heap
  seed : Int
  shots : Nat
  selection : List String
  events : List Event

namespace Heap

/-- The surfaces of all alignables. -/
def surfaces (h : Heap) : Nat → List ℚ := fun a => (h.alignables a).surface

/-- Replace the surfaces of all alignables. -/
def setSurfaces (h : Heap) (f : Nat → List ℚ) : Heap :=
  { h with alignables := fun a => { h.alignables a with surface := f a } }

/-- Method `Alignable::setAlignmentPositionError( ape )` of the alignable at `a`. -/
def setAlignmentPositionError (h : Heap) (a : Nat) (ape : List ℚ) : Heap :=
  h.setAlignable a { h.alignables a with alignmentPositionError := some ape }

end Heap

namespace InitState

/-- Record an event. -/
def emit (s : InitState) (e : Event) : InitState := { s with events := s.events ++ [e] }

/-- The statement `( *itAlignable )->move( globalShift )`. -/
def move (col : InitCollaborators) (a : Nat) (globalShift : List ℚ) (s : InitState) :
    InitState :=
  { s with heap := s.heap.setSurfaces (col.move a globalShift s.heap.surfaces) }.emit
    (Event.move a globalShift)

/-- The statement `( *itAlignable )->rotateInLocalFrame( rotation )`. -/
def rotateInLocalFrame (col : InitCollaborators) (a : Nat) (rotation : List ℚ)
    (s : InitState) : InitState :=
  { s with heap := s.heap.setSurfaces (col.rotateInLocalFrame a rotation s.heap.surfaces) }.emit
    (Event.rotateInLocalFrame a rotation)

/-- The statement `( *itAlignable )->rotateAroundGlobalZ( angle )`. -/
def rotateAroundGlobalZ (col : InitCollaborators) (a : Nat) (angle : ℚ) (s : InitState) :
    InitState :=
  { s with heap := s.heap.setSurfaces (col.rotateAroundGlobalZ a angle s.heap.surfaces) }.emit
    (Event.rotateAroundGlobalZ a angle)

/-- The statement `( *itAlignable )->setAlignmentPositionError( ape )`, with the error
vector the local-to-global transform of `localError`. -/
def setAlignmentPositionError (col : InitCollaborators) (a : Nat) (localError : List ℚ)
    (s : InitState) : InitState :=
  let globalError := col.toGlobal (s.heap.surfaces a) localError
  { s with heap := s.heap.setAlignmentPositionError a globalError }.emit
    (Event.setAlignmentPositionError a globalError)

/-- The statement `( *itAlignable )->setAlignmentParameters( p )`. -/
def setAlignmentParameters (a : Nat) (p : AlignmentParameters) (s : InitState) : InitState :=
  { s with heap := s.heap.setAlignmentParameters a p }.emit (Event.setAlignmentParameters a p)

end InitState

/-- The call `RandGauss::shoot()`. -/
def shoot (col : InitCollaborators) (s : InitState) : ℚ × InitState :=
  (col.gauss s.seed s.shots, { s with shots := s.shots + 1 })

/-- The expression `apply ? sigma*RandGauss::shoot() : 0.`. -/
def shootIf (col : InitCollaborators) (apply : Bool) (sigma : ℚ) (s : InitState) :
    ℚ × InitState :=
  if apply then ((sigma * (shoot col s).1), (shoot col s).2) else (0, s)

/-- Entry `m[i][j]` of a matrix stored by rows. -/
def entry (m : List (List ℚ)) (i j : Nat) : ℚ := (m.getD i []).getD j 0

/-- A square matrix that is zero off the diagonal. -/
def diagonalMatrix (d : List ℚ) : List (List ℚ) :=
  (List.range d.length).map fun i =>
    (List.range d.length).map fun j => if i = j then d.getD i 0 else 0

/-- The vector `startParameters( 6, 0 )`. -/
def startParameters : List ℚ := List.replicate 6 0

namespace InitializationConfiguration

/-- Local `updateGraph`. -/
def updateGraph (ic : InitializationConfiguration) : Int :=
  getUntrackedParameter ic.UpdateGraphs 100

/-- Local `addPositionError`, as assigned inside the rule loop. -/
def addPositionError (ic : InitializationConfiguration) : Bool :=
  getUntrackedParameter ic.AddPositionError false

/-- Local `seed`. -/
def seed (ic : InitializationConfiguration) : Int :=
  getUntrackedParameter ic.RandomSeed 1726354

/-- Local `applyXShifts`. -/
def applyXShifts (ic : InitializationConfiguration) : Bool :=
  getUntrackedParameter ic.ApplyXShifts false

/-- Local `applyYShifts`. -/
def applyYShifts (ic : InitializationConfiguration) : Bool :=
  getUntrackedParameter ic.ApplyYShifts false

/-- Local `applyZShifts`. -/
def applyZShifts (ic : InitializationConfiguration) : Bool :=
  getUntrackedParameter ic.ApplyZShifts false

/-- Local `applyXRots`. -/
def applyXRots (ic : InitializationConfiguration) : Bool :=
  getUntrackedParameter ic.ApplyXRotations false

/-- Local `applyYRots`. -/
def applyYRots (ic : InitializationConfiguration) : Bool :=
  getUntrackedParameter ic.ApplyYRotations false

/-- Local `applyZRots`. -/
def applyZRots (ic : InitializationConfiguration) : Bool :=
  getUntrackedParameter ic.ApplyZRotations false

/-- Local `applyRandomStartValues`. -/
def applyRandomStartValues (ic : InitializationConfiguration) : Bool :=
  getUntrackedParameter ic.ApplyRandomStartValues false

/-- Local `applyCurl`. -/
def applyCurl (ic : InitializationConfiguration) : Bool :=
  getUntrackedParameter ic.ApplyCurl false

/-- Local `curlConst`. -/
def curlConst (ic : InitializationConfiguration) : ℚ :=
  getUntrackedParameter ic.CurlConstant (1 / 1000000)

/-- Local `applyShifts`. -/
def applyShifts (ic : InitializationConfiguration) : Bool :=
  ic.applyXShifts || ic.applyYShifts || ic.applyZShifts

/-- Local `applyRots`. -/
def applyRots (ic : InitializationConfiguration) : Bool :=
  ic.applyXRots || ic.applyYRots || ic.applyZRots

end InitializationConfiguration

namespace RuleConfiguration

/-- Local `sigmaXShift`. -/
def sigmaXShift (config : RuleConfiguration) : ℚ :=
  getUntrackedParameter config.SigmaXShifts (4 / 100)

/-- Local `sigmaYShift`. -/
def sigmaYShift (config : RuleConfiguration) : ℚ :=
  getUntrackedParameter config.SigmaYShifts (4 / 100)

/-- Local `sigmaZShift`. -/
def sigmaZShift (config : RuleConfiguration) : ℚ :=
  getUntrackedParameter config.SigmaZShifts (4 / 100)

/-- Local `sigmaXRot`. -/
def sigmaXRot (config : RuleConfiguration) : ℚ :=
  getUntrackedParameter config.SigmaXRotations (5 / 10000)

/-- Local `sigmaYRot`. -/
def sigmaYRot (config : RuleConfiguration) : ℚ :=
  getUntrackedParameter config.SigmaYRotations (5 / 10000)

/-- Local `sigmaZRot`. -/
def sigmaZRot (config : RuleConfiguration) : ℚ :=
  getUntrackedParameter config.SigmaZRotations (5 / 10000)

/-- Vector `randSig` after the six assignments of the rule. -/
def randSig (config : RuleConfiguration) : List ℚ :=
  [config.sigmaXShift, config.sigmaYShift, config.sigmaZShift,
   config.sigmaXRot, config.sigmaYRot, config.sigmaZRot]

/-- Matrix `startError` after the six diagonal assignments of the rule. -/
def startError (config : RuleConfiguration) : List (List ℚ) :=
  diagonalMatrix
    [getUntrackedParameter config.XShiftsStartError (4 / 10000),
     getUntrackedParameter config.YShiftsStartError (4 / 10000),
     getUntrackedParameter config.ZShiftsStartError (4 / 10000),
     getUntrackedParameter config.XRotationsStartError (3 / 100000),
     getUntrackedParameter config.YRotationsStartError (3 / 100000),
     getUntrackedParameter config.ZRotationsStartError (3 / 100000)]

/-- Local `readParam`. -/
def readParam (config : RuleConfiguration) : Bool :=
  getUntrackedParameter config.ReadParametersFromFile false

/-- Local `readCovar`. -/
def readCovar (config : RuleConfiguration) : Bool :=
  getUntrackedParameter config.ReadCovarianceFromFile false

/-- Local `applyParam`. -/
def applyParam (config : RuleConfiguration) : Bool :=
  getUntrackedParameter config.ApplyParametersFromFile false

/-- Local `applyCovar`. -/
def applyCovar (config : RuleConfiguration) : Bool :=
  getUntrackedParameter config.ApplyErrorFromFile false

/-- Local `file`. -/
def file (config : RuleConfiguration) : String :=
  getUntrackedParameter config.FileName "Input.root"

end RuleConfiguration

namespace InitResult

/-- Sequencing: continue only after a normal end. -/
def bind {α β : Type} (r : InitResult α) (f : α → InitResult β) : InitResult β :=
  match r with
  | .ok a => f a
  | .raised e => .raised e
  | .nullAccess a => .nullAccess a
  | .unfinished => .unfinished

end InitResult

/-- The call `sort( alignables.begin(), alignables.end(), *this )`.  For a comparator
that is a strict total order every sorting algorithm returns the same vector; insertion
sort stands for `std::sort`. -/
def sortAlignables (col : InitCollaborators) (alignables : List Nat) : List Nat :=
  alignables.insertionSort (fun a b => col.less b a = false)

/-- The read loop `while ( !ierr )`: reads iteration `iter`, appends every record read
to the vector stored in `alignmentParametersMap` at the record's alignable, and goes on
with the next iteration as long as the reader reports status 0.  `fuel` bounds the
number of reads. -/
def readLoop (col : InitCollaborators) (alignables : List Nat) (file : String) :
    Nat → Nat → List (Nat × List AlignmentParameters) → InitState →
      InitResult (List (Nat × List AlignmentParameters) × InitState)
  | 0, _, _, _ => .unfinished
  | fuel + 1, iter, m, s =>
    let r := col.readAlignmentParameters alignables file iter
    let m1 := r.1.foldl (fun acc itParam => mapPushBack itParam.alignable itParam acc) m
    let s1 := s.emit (Event.readAlignmentParameters alignables file iter r.1.length r.2)
    if r.2 = 0 then readLoop col alignables file fuel (iter + 1) m1 s1 else .ok (m1, s1)

/-- Lines 297-299: the vector `displacement`. -/
def drawDisplacement (col : InitCollaborators) (ic : InitializationConfiguration)
    (config : RuleConfiguration) (s : InitState) : List ℚ × InitState :=
  let d0 := shootIf col ic.applyXShifts config.sigmaXShift s
  let d1 := shootIf col ic.applyYShifts config.sigmaZShift d0.2
  let d2 := shootIf col ic.applyZShifts config.sigmaYShift d1.2
  ([d0.1, d1.1, d2.1], d2.2)

/-- Lines 301-306: the move by the local shift taken to the global frame. -/
def applyShift (col : InitCollaborators) (ic : InitializationConfiguration) (a : Nat)
    (displacement : List ℚ) (s : InitState) : InitState :=
  if ic.applyShifts then
    let localShift := displacement
    let globalShift := col.toGlobal (s.heap.surfaces a) localShift
    s.move col a globalShift
  else s

/-- Lines 308-312: the vector `eulerAngles`. -/
def drawEulerAngles (col : InitCollaborators) (ic : InitializationConfiguration)
    (config : RuleConfiguration) (s : InitState) : List ℚ × InitState :=
  let e0 := shootIf col ic.applyXRots config.sigmaXRot s
  let e1 := shootIf col ic.applyYRots config.sigmaYRot e0.2
  let e2 := shootIf col ic.applyZRots config.sigmaZRot e1.2
  ([e0.1, e1.1, e2.1], e2.2)

/-- Lines 314-318: the rotation in the local frame. -/
def applyRotation (col : InitCollaborators) (ic : InitializationConfiguration) (a : Nat)
    (eulerAngles : List ℚ) (s : InitState) : InitState :=
  if ic.applyRots then s.rotateInLocalFrame col a (col.toMatrix eulerAngles) else s

/-- Lines 320-324: the curl. -/
def applyCurlRotation (col : InitCollaborators) (ic : InitializationConfiguration) (a : Nat)
    (s : InitState) : InitState :=
  if ic.applyCurl then
    let radius := col.perp (s.heap.surfaces a)
    s.rotateAroundGlobalZ col a (ic.curlConst * radius)
  else s

/-- Lines 326-332: the position error derived from the start error. -/
def addStartPositionError (col : InitCollaborators) (ic : InitializationConfiguration)
    (config : RuleConfiguration) (a : Nat) (s : InitState) : InitState :=
  if ic.addPositionError then
    s.setAlignmentPositionError col a
      [col.sqrt (entry config.startError 0 0), col.sqrt (entry config.startError 1 1),
       col.sqrt (entry config.startError 2 2)]
  else s

/-- Lines 297-332 for one alignable: the randomized misalignment. -/
def misalign (col : InitCollaborators) (ic : InitializationConfiguration)
    (config : RuleConfiguration) (a : Nat) (s : InitState) : InitState :=
  let d := drawDisplacement col ic config s
  let s1 := applyShift col ic a d.1 d.2
  let e := drawEulerAngles col ic config s1
  let s2 := applyRotation col ic a e.1 e.2
  let s3 := applyCurlRotation col ic a s2
  addStartPositionError col ic config a s3

/-- The parameters built in the three default branches: a clone with the start values
and a fresh bookkeeping object. -/
def defaultParameters (col : InitCollaborators) (ic : InitializationConfiguration)
    (config : RuleConfiguration) (a : Nat) (current : AlignmentParameters) :
    AlignmentParameters :=
  (current.clone startParameters config.startError).setUserVariables
    (.kalman (col.createUserVariables a ic.updateGraph))

/-- Lines 344-384: the local `alignmentParameters` chosen for an alignable whose
parameter slot holds `current`.  `back()` of an empty vector is reported as
`nullAccess`. -/
def seedParameters (col : InitCollaborators) (ic : InitializationConfiguration)
    (config : RuleConfiguration) (alignmentParametersMap : List (Nat × List AlignmentParameters))
    (a : Nat) (current : AlignmentParameters) : InitResult AlignmentParameters :=
  if config.readParam && config.readCovar then
    match mapFind a alignmentParametersMap with
    | none => .ok (defaultParameters col ic config a current)
    | some records =>
      match records.getLast? with
      | none => .nullAccess a
      | some alignmentParameters =>
        let userVariables := col.createUserVariables a ic.updateGraph
        .ok (alignmentParameters.setUserVariables
          (.kalman (col.updateFrom alignmentParameters userVariables)))
  else if config.readParam then
    match mapFind a alignmentParametersMap with
    | none => .ok (defaultParameters col ic config a current)
    | some records =>
      match records.getLast? with
      | none => .nullAccess a
      | some back =>
        let parameters := back.parameters
        let alignmentParameters := current.clone parameters config.startError
        let userVariables := col.createUserVariables a ic.updateGraph
        .ok (alignmentParameters.setUserVariables
          (.kalman (col.updateFrom alignmentParameters userVariables)))
  else .ok (defaultParameters col ic config a current)

/-- The loop of lines 396-400: add `sqrt( randSig[iParam] )*RandGauss::shoot()` to
every entry of the vector, from index `iParam` on. -/
def perturb (col : InitCollaborators) (randSig : List ℚ) :
    Nat → List ℚ → InitState → List ℚ × InitState
  | _, [], s => ([], s)
  | iParam, x :: rest, s =>
    let r := perturb col randSig (iParam + 1) rest (shoot col s).2
    ((x + col.sqrt (randSig.getD iParam 0) * (shoot col s).1) :: r.1, r.2)

/-- Lines 389-406: the random start values, applied to the parameters just installed. -/
def randomStartValues (col : InitCollaborators) (ic : InitializationConfiguration)
    (config : RuleConfiguration) (a : Nat) (alignmentParameters : AlignmentParameters)
    (s : InitState) : InitResult InitState :=
  if ic.applyRandomStartValues then
    let r := perturb col config.randSig 0 alignmentParameters.parameters s
    let randomStartErrors := alignmentParameters.covariance
    match r.2.heap.alignmentParameters a with
    | none => .nullAccess a
    | some installed => .ok (r.2.setAlignmentParameters a (installed.clone r.1 randomStartErrors))
  else .ok s

/-- Lines 342-408: seeding of the parameter state of an alignable that carries a
parameter slot. -/
def seedAlignable (col : InitCollaborators) (ic : InitializationConfiguration)
    (config : RuleConfiguration) (alignmentParametersMap : List (Nat × List AlignmentParameters))
    (a : Nat) (s : InitState) : InitResult InitState :=
  match s.heap.alignmentParameters a with
  | none => .ok s
  | some current =>
    (seedParameters col ic config alignmentParametersMap a current).bind fun alignmentParameters =>
      randomStartValues col ic config a alignmentParameters
        (s.setAlignmentParameters a alignmentParameters)

/-- Vector `translation()` of rigid-body parameters. -/
def translation (p : AlignmentParameters) : List ℚ := p.parameters.take 3

/-- Vector `rotation()` of rigid-body parameters. -/
def rotation (p : AlignmentParameters) : List ℚ := (p.parameters.drop 3).take 3

/-- Value `normsq()` of a vector. -/
def normsq (v : List ℚ) : ℚ := (v.map fun x => x * x).sum

/-- Lines 424-432: apply the translation and rotation of one snapshot record. -/
def applyParameters (col : InitCollaborators) (a : Nat) (alignmentParameters : AlignmentParameters)
    (s : InitState) : InitState :=
  let shift := translation alignmentParameters
  let s1 := s.move col a
    (col.toGlobal (s.heap.surfaces a) [shift.getD 0 0, shift.getD 1 0, shift.getD 2 0])
  let angles := rotation alignmentParameters
  if normsq angles > 1 / 10000000000 then s1.rotateInLocalFrame col a (col.toMatrix angles)
  else s1

/-- Lines 434-441: derive the position error from the covariance of one record. -/
def applyCovariance (col : InitCollaborators) (a : Nat) (alignmentParameters : AlignmentParameters)
    (s : InitState) : InitState :=
  let aliCov := alignmentParameters.covariance
  s.setAlignmentPositionError col a
    [col.sqrt (entry aliCov 0 0), col.sqrt (entry aliCov 1 1), col.sqrt (entry aliCov 2 2)]

/-- The failure thrown at line 422. -/
def badConfig : Failure :=
  ⟨"BadConfig", "applyParameters: provided alignable does not have rigid body alignment parameters"⟩

/-- Lines 417-442: the loop over all snapshot records of one alignable. -/
def applyRecords (col : InitCollaborators) (config : RuleConfiguration) (a : Nat) :
    List AlignmentParameters → InitState → InitResult InitState
  | [], s => .ok s
  | itParam :: rest, s =>
    match itParam.kind with
    | .otherKind _ => .raised badConfig
    | .rigidBody =>
      let s1 := if config.applyParam then applyParameters col a itParam s else s
      let s2 := if config.applyCovar then applyCovariance col a itParam s1 else s1
      applyRecords col config a rest s2

/-- Lines 444-445: set the alignment flag through the parameter slot of the alignable. -/
def flagAlignable (a : Nat) (s : InitState) : InitResult InitState :=
  match s.heap.alignmentParameters a with
  | none => .nullAccess a
  | some alignmentParameters =>
    match alignmentParameters.kalmanUserVariables with
    | none => .ok s
    | some userVariables =>
      let flagged := alignmentParameters.setUserVariables
        (.kalman (userVariables.setAlignmentFlag true))
      .ok ({ s with heap := s.heap.setAlignmentParameters a flagged }.emit
        (Event.setAlignmentFlag a true))

/-- Lines 410-446: the apply-from-file step for one alignable. -/
def applyFromFile (col : InitCollaborators) (config : RuleConfiguration)
    (alignmentParametersMap : List (Nat × List AlignmentParameters)) (a : Nat)
    (s : InitState) : InitResult InitState :=
  if config.applyParam || config.applyCovar then
    match mapFind a alignmentParametersMap with
    | none => .ok s
    | some allAlignmentParameters =>
      (applyRecords col config a allAlignmentParameters s).bind (flagAlignable a)
  else .ok s

/-- Body of the loop over the sorted alignables (lines 295-447). -/
def initializeAlignable (col : InitCollaborators) (ic : InitializationConfiguration)
    (config : RuleConfiguration) (alignmentParametersMap : List (Nat × List AlignmentParameters))
    (a : Nat) (s : InitState) : InitResult InitState :=
  (seedAlignable col ic config alignmentParametersMap a (misalign col ic config a s)).bind
    (applyFromFile col config alignmentParametersMap a)

/-- The loop over the sorted alignables. -/
def initializeAlignables (col : InitCollaborators) (ic : InitializationConfiguration)
    (config : RuleConfiguration) (alignmentParametersMap : List (Nat × List AlignmentParameters)) :
    List Nat → InitState → InitResult InitState
  | [], s => .ok s
  | itAlignable :: rest, s =>
    (initializeAlignable col ic config alignmentParametersMap itAlignable s).bind
      (initializeAlignables col ic config alignmentParametersMap rest)

/-- Lines 264-291: the optional load of the snapshots. -/
def loadSnapshots (col : InitCollaborators) (config : RuleConfiguration) (fuel : Nat)
    (alignables : List Nat) (s : InitState) :
    InitResult (List (Nat × List AlignmentParameters) × InitState) :=
  if config.readParam || config.readCovar || config.applyParam || config.applyCovar then
    readLoop col alignables config.file fuel 1 [] s
  else .ok ([], s)

/-- Body of the loop over the initialization rules (lines 227-451). -/
def initializeRule (col : InitCollaborators) (selectedAlignables : List String → List Nat)
    (ic : InitializationConfiguration) (fuel : Nat)
    (itInitSel : String) (s : InitState) : InitResult InitState :=
  let config := ic.rule itInitSel
  let s1 := { s with selection := s.selection ++ config.AlignableSelection }
  let alignables := sortAlignables col (selectedAlignables s1.selection)
  (loadSnapshots col config fuel alignables s1).bind fun loaded =>
    (initializeAlignables col ic config loaded.1 alignables loaded.2).bind fun s2 =>
      .ok { s2 with selection := [] }

/-- The loop over the initialization rules. -/
def initializeRules (col : InitCollaborators) (selectedAlignables : List String → List Nat)
    (ic : InitializationConfiguration) (fuel : Nat) :
    List String → InitState → InitResult InitState
  | [], s => .ok s
  | itInitSel :: rest, s =>
    (initializeRule col selectedAlignables ic fuel itInitSel s).bind
      (initializeRules col selectedAlignables ic fuel rest)

/-- Method `KalmanAlignmentAlgorithm::initializeAlignmentParameters`. -/
def initializeAlignmentParameters (col : InitCollaborators)
    (selectedAlignables : List String → List Nat) (cfg : Configuration) (fuel : Nat)
    (h : Heap) : InitResult InitState :=
  let initConfig := cfg.Initialization
  initializeRules col selectedAlignables initConfig fuel initConfig.InitializationSelector
    ⟨h, initConfig.seed, 0, [], [Event.setTheSeed initConfig.seed]⟩

/-- The constructor: only the configuration is set. -/
def construct (config : Configuration) : KalmanAlignmentAlgorithm :=
  ⟨config, 0, 0, [], 1⟩

/-- Method `KalmanAlignmentAlgorithm::initialize`.  `navigator` is the address returned
by `new AlignableNavigator`. -/
def initializeAlgorithm (col : InitCollaborators)
    (selectedAlignables : List String → List Nat) (fuel : Nat) (alg : KalmanAlignmentAlgorithm)
    (store : Nat) (navigator : Nat) (h : Heap) :
    InitResult (KalmanAlignmentAlgorithm × Heap × List Event) :=
  (initializeAlignmentParameters col selectedAlignables alg.theConfiguration fuel h).bind fun s =>
    .ok ({ alg with theParameterStore := store, theNavigator := navigator,
                    theSelector := s.selection },
         s.heap,
         [Event.newNavigator navigator, Event.newSelector] ++ s.events ++
         [Event.newRefitter navigator, Event.dataCollectorConfigure])

/-! ## Projections of the event sequence -/

namespace Event

/-- The arguments of a call of a trajectory factory: factory, event setup, trajectory/track
pairs, external predictions. -/
def factoryCall? : Event → Option (Nat × Nat × List Nat × List Nat)
  | .trajectories factory eventSetup tracklets external _ =>
    some (factory, eventSetup, tracklets, external)
  | _ => none

/-- The factory and the sequence it returned, for a factory call that returned. -/
def factoryReturn? : Event → Option (Nat × List ReferenceTrajectory)
  | .trajectories factory _ _ _ (.ok returned) => some (factory, returned)
  | _ => none

/-- The arguments of a `process` call: updator, trajectory, parameter store, navigator,
metrics updator. -/
def processCall? : Event → Option (Nat × ReferenceTrajectory × Nat × Nat × Nat)
  | .process updator trajectory store navigator metrics _ =>
    some (updator, trajectory, store, navigator, metrics)
  | _ => none

/-- The failure raised by a refit, a factory call or a `process` call. -/
def failure? : Event → Option Failure
  | .refitTracks _ _ r => r.failure?
  | .trajectories _ _ _ _ r => r.failure?
  | .process _ _ _ _ _ r => r.failure?
  | _ => none

/-- Whether the event is a refit, a factory call or a `process` call. -/
def isTrackingCall : Event → Bool
  | .refitTracks _ _ _ => true
  | .trajectories _ _ _ _ _ => true
  | .process _ _ _ _ _ _ => true
  | _ => false

/-- Whether the event is the first line printed by `terminate`. -/
def isTerminateStart : Event → Bool
  | .coutTerminateStart => true
  | _ => false

/-- The arguments of a bookkeeping `update( flag )` call: alignable and flag. -/
def updateCall? : Event → Option (Nat × Bool)
  | .update alignable enforceUpdate => some (alignable, enforceUpdate)
  | _ => none

/-- The arguments of a snapshot write: alignables, file, iteration, validity check. -/
def writeCall? : Event → Option (List Nat × String × Int × Bool)
  | .writeAlignmentParameters alignables file iteration validCheck _ =>
    some (alignables, file, iteration, validCheck)
  | _ => none

/-- The pointer released by `delete theNavigator`. -/
def deleteNavigator? : Event → Option Nat
  | .deleteNavigator pointer => some pointer
  | _ => none

/-- The pointer obtained by `new AlignableNavigator`. -/
def newNavigator? : Event → Option Nat
  | .newNavigator pointer => some pointer
  | _ => none

end Event

/-- The tracklets returned by the refitter, none when it raised. -/
def refittedTracklets (c : Collaborators) (eventSetup : Nat) (tracks : List Nat) (h : Heap) :
    List Tracklet :=
  match (c.refitTracks eventSetup tracks h).2 with
  | .ok ts => ts
  | .error _ => []

/-- The tracklets of `ts` produced by setup `s`, in the order of `ts`. -/
def trackletsOf (ts : List Tracklet) (s : Nat) : List Tracklet :=
  ts.filter fun t => t.trackingSetup = s

/-- The factory call owed to setup `s` for the refitted tracklets `ts`. -/
def factoryCallFor (c : Collaborators) (eventSetup : Nat) (ts : List Tracklet) (s : Nat) :
    Nat × Nat × List Nat × List Nat :=
  ((c.setupAt s).trajectoryFactory, eventSetup,
    (trackletsOf ts s).map (fun t => t.trajTrackPair),
    (trackletsOf ts s).map (fun t => t.externalPrediction))

/-- The `process` call owed to trajectory `t` of setup `s`. -/
def processCallFor (c : Collaborators) (alg : KalmanAlignmentAlgorithm) (s : Nat)
    (t : ReferenceTrajectory) : Nat × ReferenceTrajectory × Nat × Nat × Nat :=
  ((c.setupAt s).alignmentUpdator, t, alg.theParameterStore, alg.theNavigator,
    (c.setupAt s).metricsUpdator)

/-- Whether `terminate` marks module `m` on heap `h`: the parameter slot is not null and
carries Kalman bookkeeping with a positive number of updates. -/
def isMarked (h : Heap) (m : Nat) : Bool :=
  match h.alignmentParameters m with
  | none => false
  | some p =>
    match p.kalmanUserVariables with
    | none => false
    | some uv => decide (uv.numberOfUpdates > 0)

/-- The factory call made for one entry of `setupToTrackletMap`. -/
def entryCall (c : Collaborators) (eventSetup : Nat) (e : Nat × List Tracklet) :
    Nat × Nat × List Nat × List Nat :=
  ((c.setupAt e.1).trajectoryFactory, eventSetup, e.2.map (fun t => t.trajTrackPair),
    e.2.map (fun t => t.externalPrediction))

/-- The `process` calls owed to a setup and the trajectories its factory returned. -/
def visitCalls (c : Collaborators) (alg : KalmanAlignmentAlgorithm)
    (v : Nat × List ReferenceTrajectory) : List (Nat × ReferenceTrajectory × Nat × Nat × Nat) :=
  v.2.map (processCallFor c alg v.1)

/-- The factory of a setup together with the trajectories it returned. -/
def visitReturn (c : Collaborators) (v : Nat × List ReferenceTrajectory) :
    Nat × List ReferenceTrajectory :=
  ((c.setupAt v.1).trajectoryFactory, v.2)

/-- The setups visited by `run`: the keys of `setupToTrackletMap`, in map order. -/
def visitedSetups (c : Collaborators) (eventSetup : Nat) (tracks : List Nat) (h : Heap) :
    List Nat :=
  (setupToTrackletMap (refittedTracklets c eventSetup tracks h)).map Prod.fst

/-! ## Concrete instances -/

/-- A heap without parameters, metrics or external state. -/
def emptyHeap : Heap := ⟨fun _ => ⟨[], none, none⟩, fun _ => [], 0⟩

/-- The failure raised by the collaborators of the examples. -/
def sampleFailure : Failure := ⟨"LogicError", "invalid matrix dimensions"⟩

/-- Two setups at addresses 1 and 2; tracks with an even number go to setup 1, the
others to setup 2; a factory returns one trajectory per tracklet; the updator at
address `failingUpdator` raises `sampleFailure`, every other call succeeds; the first
snapshot write reports a collision. -/
def sampleCollaborators (failingUpdator : Nat) : Collaborators where
  setupAt := fun s => ⟨"setup", 100 + s, 200 + s, 300 + s⟩
  getTrackingSetups := [1, 2]
  refitTracks := fun _ tracks h => (h, .ok (tracks.map fun t => ⟨t % 2 + 1, t, t + 10⟩))
  trajectories := fun factory _ tracklets _ h =>
    (h, .ok (tracklets.map fun t => ⟨t, [factory]⟩))
  process := fun updator _ _ _ _ h =>
    (h, if updator = failingUpdator then .error sampleFailure else .ok ())
  updateEnforced := fun uv => { uv with theNumberOfUpdates := uv.theNumberOfUpdates + 1 }
  writeAlignmentParameters := fun _ _ iteration _ h => (h, if iteration = 1 then -1 else 0)

/-- A configuration without initialization rules. -/
def sampleConfiguration : Configuration where
  WriteAlignmentParameters := none
  OutputFile := "out.root"
  TimingLogFile := none
  Initialization :=
    { UpdateGraphs := none, AddPositionError := none, RandomSeed := none,
      ApplyXShifts := none, ApplyYShifts := none, ApplyZShifts := none,
      ApplyXRotations := none, ApplyYRotations := none, ApplyZRotations := none,
      ApplyRandomStartValues := none, ApplyCurl := none, CurlConstant := none,
      InitializationSelector := [],
      rule := fun _ =>
        { SigmaXShifts := none, SigmaYShifts := none, SigmaZShifts := none,
          SigmaXRotations := none, SigmaYRotations := none, SigmaZRotations := none,
          XShiftsStartError := none, YShiftsStartError := none, ZShiftsStartError := none,
          XRotationsStartError := none, YRotationsStartError := none,
          ZRotationsStartError := none, AlignableSelection := [],
          ReadParametersFromFile := none, ReadCovarianceFromFile := none,
          ApplyParametersFromFile := none, ApplyErrorFromFile := none, FileName := none } }

/-- An initialized algorithm: parameter store at 7, navigator at 9. -/
def sampleAlgorithm : KalmanAlignmentAlgorithm := ⟨sampleConfiguration, 7, 9, [], 1⟩

/-! ## Initialization: derived notions and concrete instances -/

namespace InitResult

/-- The state reached, when the initialization ended normally. -/
def value? {α : Type} : InitResult α → Option α
  | .ok a => some a
  | _ => none

/-- The failure thrown, when the initialization ended by a `cms::Exception`. -/
def raised? {α : Type} : InitResult α → Option Failure
  | .raised e => some e
  | _ => none

/-- The alignable whose null parameter slot was accessed, when that ended the
initialization. -/
def nullAccess? {α : Type} : InitResult α → Option Nat
  | .nullAccess a => some a
  | _ => none

end InitResult

/-- The records pushed into `alignmentParametersMap` by the read loop started at
iteration `iter`, in the order they are pushed: the records of successive iterations up
to and including the first read that reports a non-zero status. -/
def snapshotRecords (col : InitCollaborators) (alignables : List Nat) (file : String) :
    Nat → Nat → List AlignmentParameters
  | 0, _ => []
  | fuel + 1, iter =>
    if (col.readAlignmentParameters alignables file iter).2 = 0 then
      (col.readAlignmentParameters alignables file iter).1 ++
        snapshotRecords col alignables file fuel (iter + 1)
    else (col.readAlignmentParameters alignables file iter).1

/-- The records loaded for a rule: those of the read loop when one of the four
read/apply toggles is on, none otherwise. -/
def loadedRecords (col : InitCollaborators) (config : RuleConfiguration) (fuel : Nat)
    (alignables : List Nat) : List AlignmentParameters :=
  if config.readParam || config.readCovar || config.applyParam || config.applyCovar then
    snapshotRecords col alignables config.file fuel 1
  else []

/-- The most recent snapshot record of module `a`: the last record of `a` pushed. -/
def mostRecentRecord (records : List AlignmentParameters) (a : Nat) :
    Option AlignmentParameters :=
  (records.filter fun p => p.alignable = a).getLast?

/-- Whether the event is a geometric operation on an alignable. -/
def Event.isGeometric : Event → Bool
  | .move _ _ => true
  | .rotateInLocalFrame _ _ => true
  | .rotateAroundGlobalZ _ _ => true
  | _ => false

/-- A snapshot record of module `a`. -/
def sampleRecord (a : Nat) (kind : ParametersKind) : AlignmentParameters :=
  ⟨kind, a, [1, 2, 3, 0, 0, 0], diagonalMatrix [9, 9, 9, 9, 9, 9], none⟩

/-- Collaborators of the examples: alignables are ordered by address, the `n`-th Gaussian
draw is `n + 1`, the snapshot file holds `records` at iteration 1 and nothing else,
local and global frame coincide, a move adds the shift to the surface coordinates. -/
def sampleInitCollaborators (records : List AlignmentParameters) : InitCollaborators where
  less := fun a b => decide (a < b)
  gauss := fun _ n => (n : ℚ) + 1
  readAlignmentParameters := fun alignables _ iter =>
    if iter = 1 then (records.filter fun p => p.alignable ∈ alignables, 0) else ([], 1)
  sqrt := fun x => x
  toGlobal := fun _ v => v
  toMatrix := fun v => v
  perp := fun surface => surface.getD 0 0
  move := fun a shift surfaces b =>
    if b = a then List.zipWith (fun x y => x + y) (surfaces b) shift else surfaces b
  rotateInLocalFrame := fun _ _ surfaces => surfaces
  rotateAroundGlobalZ := fun _ _ surfaces => surfaces
  createUserVariables := fun a updateGraph => ⟨a, updateGraph, 0, false, []⟩
  updateFrom := fun p uv => { uv with history := [p.parameters] }

/-- A heap in which exactly the alignables of `withSlot` carry a parameter slot. -/
def slotHeap (withSlot : List Nat) : Heap :=
  ⟨fun a => ⟨[1, 0, 0],
      if a ∈ withSlot then some ⟨.rigidBody, a, startParameters, [], none⟩ else none, none⟩,
    fun _ => [], 0⟩

/-- A rule with `SigmaYShifts = 1`, `SigmaZShifts = 2` and the given read/apply toggles. -/
def sampleRule (readParam readCovar applyParam applyCovar : Bool) : RuleConfiguration :=
  { SigmaXShifts := none, SigmaYShifts := some 1, SigmaZShifts := some 2,
    SigmaXRotations := none, SigmaYRotations := none, SigmaZRotations := none,
    XShiftsStartError := none, YShiftsStartError := none, ZShiftsStartError := none,
    XRotationsStartError := none, YRotationsStartError := none,
    ZRotationsStartError := none, AlignableSelection := ["all"],
    ReadParametersFromFile := some readParam, ReadCovarianceFromFile := some readCovar,
    ApplyParametersFromFile := some applyParam, ApplyErrorFromFile := some applyCovar,
    FileName := none }

/-- An `Initialization` parameter set with the single rule `rule`, with `ApplyYShifts`
as given and every other misalignment toggle off. -/
def sampleInitialization (applyYShifts : Bool) (rule : RuleConfiguration) :
    InitializationConfiguration :=
  { UpdateGraphs := none, AddPositionError := none, RandomSeed := none,
    ApplyXShifts := none, ApplyYShifts := some applyYShifts, ApplyZShifts := none,
    ApplyXRotations := none, ApplyYRotations := none, ApplyZRotations := none,
    ApplyRandomStartValues := none, ApplyCurl := none, CurlConstant := none,
    InitializationSelector := ["rule"], rule := fun _ => rule }

/-- The state in which the first rule starts, on heap `h`. -/
def startState (ic : InitializationConfiguration) (h : Heap) : InitState :=
  ⟨h, ic.seed, 0, [], [Event.setTheSeed ic.seed]⟩

/-- The events of a life-cycle `initialize`, `run`, `terminate` in which the updator at
address `failingUpdator` raises during `run`. -/
def lifeCycleEvents (failingUpdator : Nat) : List Event :=
  match initializeAlgorithm (sampleInitCollaborators []) (fun _ => []) 1
      (construct sampleConfiguration) 7 9 emptyHeap with
  | .ok (alg, h, initEvents) =>
    let r := run (sampleCollaborators failingUpdator) alg 0 [2, 3] h
    let t := terminate (sampleCollaborators failingUpdator) r.1 r.2.heap
    initEvents ++ r.2.events ++ t.2
  | _ => []

/-! ## Pointer-level embedding of the parameter objects

A second embedding of lines 264-291 and 342-446 of `initializeAlignmentParameters`, which
keeps the `AlignmentParameters` objects in a store indexed by address, so that modifying
an object in place and installing another object in a parameter slot are different
things.  Geometry, random draws and events are taken from the value-level embedding
above (component `init`, whose parameter slots are not used here). -/

/-- Store of the `AlignmentParameters` objects: the object at each address, the address
held in the parameter slot of each alignable (`none` is the null pointer), and the
allocation frontier (no object has been created at an address from `next` on). -/
structure ObjectStore where
  objects : Nat → Option AlignmentParameters
  slot : Nat → Option Nat
  next : Nat

namespace ObjectStore

/-- Creation of an object (`new`, `clone`, a record made by the reader): it is placed at
the frontier; returns its address. -/
def allocate (st : ObjectStore) (p : AlignmentParameters) : Nat × ObjectStore :=
  (st.next,
    { st with objects := fun o => if o = st.next then some p else st.objects o,
              next := st.next + 1 })

/-- Modification in place of the object at address `o`. -/
def write (st : ObjectStore) (o : Nat) (p : AlignmentParameters) : ObjectStore :=
  { st with objects := fun x => if x = o then some p else st.objects x }

/-- The call `setAlignmentParameters( o )` on alignable `a`: the slot now holds `o`. -/
def install (st : ObjectStore) (a o : Nat) : ObjectStore :=
  { st with slot := fun m => if m = a then some o else st.slot m }

end ObjectStore

/-- State of the pointer-level embedding. -/
structure ObjectState where
  init : InitState
  store : ObjectStore

/-- The records returned by one read are objects created by the reader; the loop of
lines 286-287 appends their addresses to `alignmentParametersMap`. -/
def pushRecords :
    List AlignmentParameters → List (Nat × List Nat) → ObjectStore →
      List (Nat × List Nat) × ObjectStore
  | [], m, st => (m, st)
  | itParam :: rest, m, st =>
    pushRecords rest (mapPushBack itParam.alignable (st.allocate itParam).1 m)
      (st.allocate itParam).2

/-- The read loop `while ( !ierr )` at pointer level. -/
def readLoopObjects (col : InitCollaborators) (alignables : List Nat) (file : String) :
    Nat → Nat → List (Nat × List Nat) → ObjectState →
      InitResult (List (Nat × List Nat) × ObjectState)
  | 0, _, _, _ => .unfinished
  | fuel + 1, iter, m, s =>
    let r := col.readAlignmentParameters alignables file iter
    let pushed := pushRecords r.1 m s.store
    let s1 : ObjectState :=
      ⟨s.init.emit (Event.readAlignmentParameters alignables file iter r.1.length r.2),
        pushed.2⟩
    if r.2 = 0 then readLoopObjects col alignables file fuel (iter + 1) pushed.1 s1
    else .ok (pushed.1, s1)

/-- Lines 264-291 at pointer level. -/
def loadSnapshotObjects (col : InitCollaborators) (config : RuleConfiguration) (fuel : Nat)
    (alignables : List Nat) (s : ObjectState) :
    InitResult (List (Nat × List Nat) × ObjectState) :=
  if config.readParam || config.readCovar || config.applyParam || config.applyCovar then
    readLoopObjects col alignables config.file fuel 1 [] s
  else .ok ([], s)

/-- The three default branches at pointer level: `clone` creates an object, then
`setUserVariables` modifies that new object. -/
def defaultObject (col : InitCollaborators) (ic : InitializationConfiguration)
    (config : RuleConfiguration) (a : Nat) (current : AlignmentParameters)
    (st : ObjectStore) : Nat × ObjectStore :=
  let cloned := st.allocate (current.clone startParameters config.startError)
  (cloned.1, cloned.2.write cloned.1
    ((current.clone startParameters config.startError).setUserVariables
      (.kalman (col.createUserVariables a ic.updateGraph))))

/-- Lines 344-384 at pointer level: the address assigned to the local pointer
`alignmentParameters`, for an alignable whose slot holds the object `current`. -/
def seedObject (col : InitCollaborators) (ic : InitializationConfiguration)
    (config : RuleConfiguration) (alignmentParametersMap : List (Nat × List Nat)) (a : Nat)
    (current : AlignmentParameters) (st : ObjectStore) : InitResult (Nat × ObjectStore) :=
  if config.readParam && config.readCovar then
    match mapFind a alignmentParametersMap with
    | none => .ok (defaultObject col ic config a current st)
    | some records =>
      match records.getLast? with
      | none => .nullAccess a
      | some back =>
        match st.objects back with
        | none => .nullAccess a
        | some record =>
          .ok (back, st.write back (record.setUserVariables
            (.kalman (col.updateFrom record (col.createUserVariables a ic.updateGraph)))))
  else if config.readParam then
    match mapFind a alignmentParametersMap with
    | none => .ok (defaultObject col ic config a current st)
    | some records =>
      match records.getLast? with
      | none => .nullAccess a
      | some back =>
        match st.objects back with
        | none => .nullAccess a
        | some record =>
          let cloned := st.allocate (current.clone record.parameters config.startError)
          .ok (cloned.1, cloned.2.write cloned.1
            ((current.clone record.parameters config.startError).setUserVariables
              (.kalman (col.updateFrom (current.clone record.parameters config.startError)
                (col.createUserVariables a ic.updateGraph)))))
  else .ok (defaultObject col ic config a current st)

/-- Lines 389-406 at pointer level: a clone of the object in the slot is created and
installed. -/
def randomStartObject (col : InitCollaborators) (ic : InitializationConfiguration)
    (config : RuleConfiguration) (a : Nat) (alignmentParameters : Nat) (s : ObjectState) :
    InitResult ObjectState :=
  if ic.applyRandomStartValues then
    match s.store.objects alignmentParameters with
    | none => .nullAccess a
    | some seeded =>
      match s.store.slot a with
      | none => .nullAccess a
      | some installed =>
        match s.store.objects installed with
        | none => .nullAccess a
        | some attached =>
          let r := perturb col config.randSig 0 seeded.parameters s.init
          let cloned := s.store.allocate (attached.clone r.1 seeded.covariance)
          .ok ⟨r.2, cloned.2.install a cloned.1⟩
  else .ok s

/-- Lines 342-408 at pointer level. -/
def seedAlignableObjects (col : InitCollaborators) (ic : InitializationConfiguration)
    (config : RuleConfiguration) (alignmentParametersMap : List (Nat × List Nat)) (a : Nat)
    (s : ObjectState) : InitResult ObjectState :=
  match s.store.slot a with
  | none => .ok s
  | some attached =>
    match s.store.objects attached with
    | none => .nullAccess a
    | some current =>
      (seedObject col ic config alignmentParametersMap a current s.store).bind fun seeded =>
        randomStartObject col ic config a seeded.1 ⟨s.init, seeded.2.install a seeded.1⟩

/-- Lines 417-442 at pointer level: the records are read, never written. -/
def applyRecordObjects (col : InitCollaborators) (config : RuleConfiguration) (a : Nat) :
    List Nat → ObjectState → InitResult ObjectState
  | [], s => .ok s
  | itParam :: rest, s =>
    match s.store.objects itParam with
    | none => .nullAccess a
    | some record =>
      match record.kind with
      | .otherKind _ => .raised badConfig
      | .rigidBody =>
        let s1 := if config.applyParam then applyParameters col a record s.init else s.init
        let s2 := if config.applyCovar then applyCovariance col a record s1 else s1
        applyRecordObjects col config a rest ⟨s2, s.store⟩

/-- Lines 444-445 at pointer level: the flag is set in place, in the user variables of
the object that the slot holds. -/
def flagObject (a : Nat) (s : ObjectState) : InitResult ObjectState :=
  match s.store.slot a with
  | none => .nullAccess a
  | some attached =>
    match s.store.objects attached with
    | none => .nullAccess a
    | some alignmentParameters =>
      match alignmentParameters.kalmanUserVariables with
      | none => .ok s
      | some userVariables =>
        .ok ⟨s.init.emit (Event.setAlignmentFlag a true),
          s.store.write attached (alignmentParameters.setUserVariables
            (.kalman (userVariables.setAlignmentFlag true)))⟩

/-- Lines 410-446 at pointer level. -/
def applyFromFileObjects (col : InitCollaborators) (config : RuleConfiguration)
    (alignmentParametersMap : List (Nat × List Nat)) (a : Nat) (s : ObjectState) :
    InitResult ObjectState :=
  if config.applyParam || config.applyCovar then
    match mapFind a alignmentParametersMap with
    | none => .ok s
    | some allAlignmentParameters =>
      (applyRecordObjects col config a allAlignmentParameters s).bind (flagObject a)
  else .ok s

/-- Body of the loop over the sorted alignables at pointer level. -/
def initializeAlignableObjects (col : InitCollaborators) (ic : InitializationConfiguration)
    (config : RuleConfiguration) (alignmentParametersMap : List (Nat × List Nat)) (a : Nat)
    (s : ObjectState) : InitResult ObjectState :=
  (seedAlignableObjects col ic config alignmentParametersMap a
      ⟨misalign col ic config a s.init, s.store⟩).bind
    (applyFromFileObjects col config alignmentParametersMap a)

/-- The loop over the sorted alignables at pointer level. -/
def initializeAlignablesObjects (col : InitCollaborators) (ic : InitializationConfiguration)
    (config : RuleConfiguration) (alignmentParametersMap : List (Nat × List Nat)) :
    List Nat → ObjectState → InitResult ObjectState
  | [], s => .ok s
  | itAlignable :: rest, s =>
    (initializeAlignableObjects col ic config alignmentParametersMap itAlignable s).bind
      (initializeAlignablesObjects col ic config alignmentParametersMap rest)

/-- Body of the loop over the initialization rules at pointer level. -/
def initializeRuleObjects (col : InitCollaborators)
    (selectedAlignables : List String → List Nat) (ic : InitializationConfiguration)
    (fuel : Nat) (itInitSel : String) (s : ObjectState) : InitResult ObjectState :=
  let config := ic.rule itInitSel
  let init1 := { s.init with selection := s.init.selection ++ config.AlignableSelection }
  let alignables := sortAlignables col (selectedAlignables init1.selection)
  (loadSnapshotObjects col config fuel alignables ⟨init1, s.store⟩).bind fun loaded =>
    (initializeAlignablesObjects col ic config loaded.1 alignables loaded.2).bind fun s2 =>
      .ok ⟨{ s2.init with selection := [] }, s2.store⟩

/-- What a step may do to the store, relative to a frontier `n`: objects at addresses
below `n` keep their content, a parameter slot either keeps its address or receives an
address not below `n`, and the allocation frontier does not move back. -/
def Preserves (n : Nat) (st st1 : ObjectStore) : Prop :=
  (∀ o, o < n → st1.objects o = st.objects o) ∧
  (∀ m, st1.slot m = st.slot m ∨ ∃ o, n ≤ o ∧ st1.slot m = some o) ∧
  st.next ≤ st1.next

/-- All addresses stored in the map are at or above `n`. -/
def MapAbove (n : Nat) (m : List (Nat × List Nat)) : Prop :=
  ∀ e ∈ m, ∀ o ∈ e.2, n ≤ o

/-- A store in which module 1 holds the object at address 0 and nothing else exists. -/
def sampleStore : ObjectStore :=
  ⟨fun o => if o = 0 then some ⟨.rigidBody, 1, startParameters, [], none⟩ else none,
    fun m => if m = 1 then some 0 else none, 1⟩

/-! ## Ordered containers: basic facts -/

theorem mem_setInsert (k x : Nat) (l : List Nat) : x ∈ setInsert k l ↔ x = k ∨ x ∈ l := by
  induction l with
  | nil => simp [setInsert]
  | cons a l ih =>
    simp only [setInsert]
    split_ifs with h1 h2
    · simp
    · subst h2; simp
    · simp [ih]; tauto

theorem sorted_setInsert (k : Nat) (l : List Nat) (hl : l.Sorted (· < ·)) :
    (setInsert k l).Sorted (· < ·) := by
  induction l with
  | nil => simp [setInsert]
  | cons a l ih =>
    simp only [setInsert]
    have hl2 := List.sorted_cons.1 hl
    split_ifs with h1 h2
    · refine List.sorted_cons.2 ⟨fun b hb => ?_, hl⟩
      rcases List.mem_cons.1 hb with rfl | hb
      · exact h1
      · exact lt_trans h1 (hl2.1 b hb)
    · exact hl
    · refine List.sorted_cons.2 ⟨fun b hb => ?_, ih hl2.2⟩
      rcases (mem_setInsert k b l).1 hb with rfl | hb
      · omega
      · exact hl2.1 b hb

theorem mem_setInsertRange (s range : List Nat) (x : Nat) :
    x ∈ setInsertRange s range ↔ x ∈ s ∨ x ∈ range := by
  unfold setInsertRange
  induction range generalizing s with
  | nil => simp
  | cons a l ih => simp [List.foldl_cons, ih, mem_setInsert]; tauto

theorem sorted_setInsertRange (s range : List Nat) (hs : s.Sorted (· < ·)) :
    (setInsertRange s range).Sorted (· < ·) := by
  unfold setInsertRange
  induction range generalizing s with
  | nil => simpa using hs
  | cons a l ih => exact ih _ (sorted_setInsert a s hs)

theorem keys_mapPushBack {α : Type} (k : Nat) (v : α) (m : List (Nat × List α)) :
    (mapPushBack k v m).map Prod.fst = setInsert k (m.map Prod.fst) := by
  induction m with
  | nil => simp [mapPushBack, setInsert]
  | cons a m ih =>
    obtain ⟨k1, vs⟩ := a
    simp only [mapPushBack, setInsert, List.map_cons]
    split_ifs with h1 h2
    · simp
    · simp
    · simp [ih]

theorem mapFind_eq_none {α : Type} (k : Nat) (m : List (Nat × List α))
    (hk : k ∉ m.map Prod.fst) : mapFind k m = none := by
  induction m with
  | nil => simp [mapFind]
  | cons a m ih =>
    obtain ⟨k1, vs⟩ := a
    simp only [List.map_cons, List.mem_cons, not_or] at hk
    simp [mapFind, hk.1, ih hk.2]

theorem mapFind_mapPushBack {α : Type} (k j : Nat) (v : α) (m : List (Nat × List α))
    (hm : (m.map Prod.fst).Sorted (· < ·)) :
    mapFind j (mapPushBack k v m) =
      if j = k then some ((mapFind k m).getD [] ++ [v]) else mapFind j m := by
  induction m with
  | nil => by_cases hj : j = k <;> simp [mapPushBack, mapFind, hj]
  | cons a m ih =>
    obtain ⟨k1, vs⟩ := a
    have hm2 : (∀ b ∈ m.map Prod.fst, k1 < b) ∧ (m.map Prod.fst).Sorted (· < ·) :=
      List.sorted_cons.1 hm
    simp only [mapPushBack]
    split_ifs with h1 h2 h3 h4 h5
    · subst h2
      have hnot : j ∉ m.map Prod.fst := fun hmem => by
        have := hm2.1 j hmem
        omega
      have hne : j ≠ k1 := by omega
      simp [mapFind, hne, mapFind_eq_none j m hnot]
    · simp [mapFind, h2]
    · subst h4; subst h3
      simp [mapFind]
    · subst h3
      simp [mapFind, h4]
    · subst h5
      have hne : j ≠ k1 := h3
      simp [mapFind, hne, ih hm2.2]
    · by_cases hj : j = k1
      · simp [mapFind, hj]
      · simp [mapFind, hj, ih hm2.2, h5]

theorem map_eq_of_nodup_keys {α : Type} (m : List (Nat × List α))
    (hm : (m.map Prod.fst).Nodup) :
    m = (m.map Prod.fst).map (fun k => (k, (mapFind k m).getD [])) := by
  induction m with
  | nil => simp
  | cons a m ih =>
    obtain ⟨k1, vs⟩ := a
    have hm2 : k1 ∉ m.map Prod.fst ∧ (m.map Prod.fst).Nodup := List.nodup_cons.1 hm
    simp only [List.map_cons, mapFind, if_true, Option.getD_some, List.cons.injEq, true_and]
    conv_lhs => rw [ih hm2.2]
    simp only [List.map_map]
    refine List.map_congr_left fun e he => ?_
    have hne : e.1 ≠ k1 := fun heq => hm2.1 (heq ▸ List.mem_map_of_mem Prod.fst he)
    simp [mapFind, hne]

/-! ## terminate: the marked modules -/

theorem alignmentParameters_setAlignmentParameters_ne (h : Heap) (a m : Nat)
    (p : AlignmentParameters) (hne : m ≠ a) :
    (h.setAlignmentParameters a p).alignmentParameters m = h.alignmentParameters m := by
  simp [Heap.setAlignmentParameters, Heap.setAlignable, Heap.alignmentParameters, hne]

theorem alignmentParameters_setAlignmentParameters_self (h : Heap) (a : Nat)
    (p : AlignmentParameters) :
    (h.setAlignmentParameters a p).alignmentParameters a = some p := by
  simp [Heap.setAlignmentParameters, Heap.setAlignable, Heap.alignmentParameters]

theorem sorted_collectAlignables (c : Collaborators) (h : Heap) (setups acc : List Nat)
    (hacc : acc.Sorted (· < ·)) : (collectAlignables c h setups acc).1.Sorted (· < ·) := by
  induction setups generalizing acc with
  | nil => simpa [collectAlignables] using hacc
  | cons s rest ih =>
    simp only [collectAlignables]
    exact ih _ (sorted_setInsertRange _ _ hacc)

theorem mem_collectAlignables (c : Collaborators) (h : Heap) (setups acc : List Nat) (x : Nat) :
    x ∈ (collectAlignables c h setups acc).1 ↔
      x ∈ acc ∨ ∃ s ∈ setups, x ∈ h.metricsAlignables (c.setupAt s).metricsUpdator := by
  induction setups generalizing acc with
  | nil => simp [collectAlignables]
  | cons s rest ih =>
    simp only [collectAlignables, ih, mem_setInsertRange, List.mem_cons, exists_eq_or_imp]
    tauto

theorem nodup_of_sorted_lt (l : List Nat) (hl : l.Sorted (· < ·)) : l.Nodup :=
  hl.imp (fun hab => Nat.ne_of_lt hab)

theorem isMarked_iff (h : Heap) (m : Nat) :
    isMarked h m = true ↔
      ∃ p, h.alignmentParameters m = some p ∧
        ∃ uv, p.userVariables = some (.kalman uv) ∧ uv.numberOfUpdates > 0 := by
  unfold isMarked
  cases hp : h.alignmentParameters m with
  | none => simp
  | some p =>
    unfold AlignmentParameters.kalmanUserVariables
    cases hu : p.userVariables with
    | none => simp [hu]
    | some u =>
      cases u with
      | kalman uv => simp [hu]
      | foreign tag => simp [hu]

theorem finalizeAlignables_cons_unmarked (c : Collaborators) (h : Heap) (a : Nat)
    (l : List Nat) (hmark : isMarked h a = false) :
    finalizeAlignables c (a :: l) h = finalizeAlignables c l h := by
  unfold isMarked at hmark
  rw [finalizeAlignables]
  split
  · rfl
  · rename_i p hp
    rw [hp] at hmark
    simp only at hmark
    split
    · rfl
    · rename_i uv hu
      rw [hu] at hmark
      simp only [decide_eq_false_iff_not] at hmark
      simp [hmark]

theorem finalizeAlignables_cons_marked (c : Collaborators) (h : Heap) (a : Nat)
    (l : List Nat) (hmark : isMarked h a = true) :
    ∃ p, (finalizeAlignables c (a :: l) h).1 =
        (finalizeAlignables c l (h.setAlignmentParameters a p)).1 ∧
      (finalizeAlignables c (a :: l) h).2.1 =
        Event.update a true :: Event.histogramParameters a "KalmanAlignmentAlgorithm" ::
          (finalizeAlignables c l (h.setAlignmentParameters a p)).2.1 ∧
      (finalizeAlignables c (a :: l) h).2.2 =
        a :: (finalizeAlignables c l (h.setAlignmentParameters a p)).2.2 := by
  unfold isMarked at hmark
  rw [finalizeAlignables]
  split
  · rename_i hp
    rw [hp] at hmark
    simp at hmark
  · rename_i p hp
    rw [hp] at hmark
    simp only at hmark
    split
    · rename_i hu
      rw [hu] at hmark
      simp at hmark
    · rename_i uv hu
      rw [hu] at hmark
      simp only [decide_eq_true_eq] at hmark
      exact ⟨p.setUserVariables (.kalman (c.updateEnforced uv)), by simp [hmark]⟩

theorem isMarked_congr (h h0 : Heap) (a : Nat)
    (ha : h.alignmentParameters a = h0.alignmentParameters a) :
    isMarked h a = isMarked h0 a := by
  simp [isMarked, ha]

theorem finalizeAlignables_spec (c : Collaborators) (h0 : Heap) (l : List Nat) (hl : l.Nodup)
    (h : Heap) (hagree : ∀ m ∈ l, h.alignmentParameters m = h0.alignmentParameters m) :
    (finalizeAlignables c l h).2.2 = l.filter (isMarked h0) ∧
    (finalizeAlignables c l h).2.1.filterMap Event.updateCall? =
      (l.filter (isMarked h0)).map (fun m => (m, true)) ∧
    (∀ e ∈ (finalizeAlignables c l h).2.1,
      e.isTrackingCall = false ∧ e.isTerminateStart = false ∧ e.writeCall? = none ∧
      e.deleteNavigator? = none) := by
  induction l generalizing h with
  | nil => simp [finalizeAlignables]
  | cons a l ih =>
    have hl2 := List.nodup_cons.1 hl
    have ha : isMarked h a = isMarked h0 a :=
      isMarked_congr h h0 a (hagree a (List.mem_cons_self a l))
    have hrest : ∀ m ∈ l, h.alignmentParameters m = h0.alignmentParameters m :=
      fun m hm => hagree m (List.mem_cons_of_mem a hm)
    cases hmark : isMarked h a with
    | false =>
      rw [finalizeAlignables_cons_unmarked c h a l hmark]
      rw [hmark] at ha
      simpa [← ha] using ih hl2.2 h hrest
    | true =>
      obtain ⟨p, -, h2, h3⟩ := finalizeAlignables_cons_marked c h a l hmark
      rw [hmark] at ha
      have hagree2 : ∀ m ∈ l,
          (h.setAlignmentParameters a p).alignmentParameters m = h0.alignmentParameters m :=
        fun m hm => by
          have hne : m ≠ a := fun heq => hl2.1 (heq ▸ hm)
          rw [alignmentParameters_setAlignmentParameters_ne _ _ _ _ hne]
          exact hrest m hm
      have key := ih hl2.2 _ hagree2
      rw [h2, h3]
      simp only [List.filter_cons, ← ha, if_true, List.map_cons, List.filterMap_cons,
        Event.updateCall?, List.mem_cons]
      refine ⟨by rw [key.1], by rw [key.2.1], ?_⟩
      rintro e (rfl | rfl | he)
      · simp [Event.isTrackingCall, Event.isTerminateStart, Event.writeCall?,
          Event.deleteNavigator?]
      · simp [Event.isTrackingCall, Event.isTerminateStart, Event.writeCall?,
          Event.deleteNavigator?]
      · exact key.2.2 e he

theorem collectAlignables_events (c : Collaborators) (h : Heap) (setups acc : List Nat) :
    ∀ e ∈ (collectAlignables c h setups acc).2,
      e.isTrackingCall = false ∧ e.isTerminateStart = false ∧ e.writeCall? = none ∧
      e.deleteNavigator? = none ∧ e.updateCall? = none := by
  induction setups generalizing acc with
  | nil => simp [collectAlignables]
  | cons s rest ih =>
    simp only [collectAlignables, List.mem_cons]
    rintro e (rfl | he)
    · simp [Event.isTrackingCall, Event.isTerminateStart, Event.writeCall?,
        Event.deleteNavigator?, Event.updateCall?]
    · exact ih _ e he

theorem sorted_allAlignables (c : Collaborators) (h : Heap) :
    (allAlignables c h).Sorted (· < ·) :=
  sorted_collectAlignables c h _ [] List.sorted_nil

theorem alignablesToWrite_eq (c : Collaborators) (h : Heap) :
    alignablesToWrite c h = (allAlignables c h).filter (isMarked h) :=
  (finalizeAlignables_spec c h _ (nodup_of_sorted_lt _ (sorted_allAlignables c h)) h
    (fun _ _ => rfl)).1

theorem filterMap_eq_nil_of_forall {α β : Type} (f : α → Option β) (l : List α)
    (hl : ∀ e ∈ l, f e = none) : l.filterMap f = [] := by
  induction l with
  | nil => rfl
  | cons a l ih =>
    rw [List.filterMap_cons, hl a (List.mem_cons_self a l)]
    exact ih fun e he => hl e (List.mem_cons_of_mem a he)

theorem writeParameters_writeCalls (c : Collaborators) (cfg : Configuration)
    (toWrite : List Nat) (h : Heap) :
    (writeParameters c cfg toWrite h).2.filterMap Event.writeCall? =
      if cfg.WriteAlignmentParameters = some true then
        (toWrite, cfg.OutputFile, 1, false) ::
          (if (c.writeAlignmentParameters toWrite cfg.OutputFile 1 false h).2 = -1 then
            [(toWrite, cfg.OutputFile, -1, false)]
          else [])
      else [] := by
  unfold writeParameters getUntrackedParameter
  cases hw : cfg.WriteAlignmentParameters with
  | none => simp
  | some b =>
    cases b with
    | false => simp
    | true =>
      by_cases h1 : (c.writeAlignmentParameters toWrite cfg.OutputFile 1 false h).2 = -1
      · simp [h1, Event.writeCall?]
      · simp [h1, Event.writeCall?]

theorem writeParameters_events (c : Collaborators) (cfg : Configuration)
    (toWrite : List Nat) (h : Heap) :
    ∀ e ∈ (writeParameters c cfg toWrite h).2,
      e.isTrackingCall = false ∧ e.isTerminateStart = false ∧ e.updateCall? = none ∧
      e.deleteNavigator? = none := by
  unfold writeParameters
  intro e he
  by_cases hw : getUntrackedParameter cfg.WriteAlignmentParameters false = true
  · by_cases h1 : (c.writeAlignmentParameters toWrite cfg.OutputFile 1 false h).2 = -1
    · simp only [hw, h1, if_true, List.mem_cons, List.mem_singleton] at he
      rcases he with rfl | rfl | rfl | he <;>
        first
        | exact absurd he (List.not_mem_nil _)
        | simp [Event.isTrackingCall, Event.isTerminateStart, Event.updateCall?,
            Event.deleteNavigator?]
    · simp only [hw, h1, if_true, if_false, List.mem_cons, List.mem_singleton] at he
      rcases he with rfl | rfl | he <;>
        first
        | exact absurd he (List.not_mem_nil _)
        | simp [Event.isTrackingCall, Event.isTerminateStart, Event.updateCall?,
            Event.deleteNavigator?]
  · simp [hw] at he

theorem terminate_events (c : Collaborators) (alg : KalmanAlignmentAlgorithm) (h : Heap) :
    (terminate c alg h).2 =
      [Event.coutTerminateStart] ++ (collectAlignables c h c.getTrackingSetups []).2 ++
      (finalizeAlignables c (allAlignables c h) h).2.1 ++
      (writeParameters c alg.theConfiguration (alignablesToWrite c h)
        (finalizeAlignables c (allAlignables c h) h).1).2 ++
      [Event.dataCollectorWrite, Event.timingDumpCout,
       Event.timingDumpFile (getUntrackedParameter alg.theConfiguration.TimingLogFile "timing.log"),
       Event.deleteNavigator alg.theNavigator, Event.coutTerminateDone] := rfl

/-- C3: the vector `alignablesToWrite` built by `terminate` has no duplicates; a module
is in it exactly when it is held by the metrics updator of at least one tracking setup,
its parameter slot is not null and the slot carries Kalman bookkeeping whose number of
updates is positive; and the enforced bookkeeping updates issued by `terminate` are one
`update( true )` per marked module, on the marked modules only. -/
theorem terminate_marks_touched_modules (c : Collaborators) (alg : KalmanAlignmentAlgorithm)
    (h : Heap) :
    (alignablesToWrite c h).Nodup ∧
    (∀ m, m ∈ alignablesToWrite c h ↔
      (∃ s ∈ c.getTrackingSetups, m ∈ h.metricsAlignables (c.setupAt s).metricsUpdator) ∧
      ∃ p, h.alignmentParameters m = some p ∧
        ∃ uv, p.userVariables = some (.kalman uv) ∧ uv.numberOfUpdates > 0) ∧
    (terminate c alg h).2.filterMap Event.updateCall? =
      (alignablesToWrite c h).map (fun m => (m, true)) := by
  have hsorted := sorted_allAlignables c h
  have hnodup := nodup_of_sorted_lt _ hsorted
  have hspec := finalizeAlignables_spec c h _ hnodup h (fun _ _ => rfl)
  refine ⟨?_, ?_, ?_⟩
  · rw [alignablesToWrite_eq]
    exact hnodup.filter _
  · intro m
    rw [alignablesToWrite_eq, List.mem_filter, isMarked_iff]
    unfold allAlignables
    rw [mem_collectAlignables]
    simp
  · rw [terminate_events]
    simp only [List.filterMap_append]
    rw [filterMap_eq_nil_of_forall _ (collectAlignables c h c.getTrackingSetups []).2
        (fun e he => (collectAlignables_events c h _ _ e he).2.2.2.2),
      filterMap_eq_nil_of_forall _ (writeParameters c alg.theConfiguration _ _).2
        (fun e he => (writeParameters_events c _ _ _ e he).2.2.1),
      hspec.2.1, alignablesToWrite_eq]
    simp [Event.updateCall?]

/-- C5: the snapshot writes issued by `terminate`.  With `WriteAlignmentParameters`
enabled there is a first write of the marked modules to `OutputFile` at iteration 1,
followed by a second write of the same modules at iteration -1 exactly when the first
one returned status -1; with the option absent or disabled there is no write. -/
theorem terminate_writes_marked_modules (c : Collaborators) (alg : KalmanAlignmentAlgorithm)
    (h : Heap) :
    (terminate c alg h).2.filterMap Event.writeCall? =
      if alg.theConfiguration.WriteAlignmentParameters = some true then
        (alignablesToWrite c h, alg.theConfiguration.OutputFile, 1, false) ::
          (if (c.writeAlignmentParameters (alignablesToWrite c h)
                alg.theConfiguration.OutputFile 1 false
                (finalizeAlignables c (allAlignables c h) h).1).2 = -1 then
            [(alignablesToWrite c h, alg.theConfiguration.OutputFile, -1, false)]
          else [])
      else [] := by
  have hsorted := sorted_allAlignables c h
  have hspec := finalizeAlignables_spec c h _ (nodup_of_sorted_lt _ hsorted) h (fun _ _ => rfl)
  rw [terminate_events]
  simp only [List.filterMap_append]
  rw [filterMap_eq_nil_of_forall _ (collectAlignables c h c.getTrackingSetups []).2
      (fun e he => (collectAlignables_events c h _ _ e he).2.2.1),
    filterMap_eq_nil_of_forall _ (finalizeAlignables c (allAlignables c h) h).2.1
      (fun e he => (hspec.2.2 e he).2.2.1),
    writeParameters_writeCalls]
  simp [Event.writeCall?]

/-! ## run: the inner loops -/

theorem processTrajectories_cons_error (c : Collaborators) (alg : KalmanAlignmentAlgorithm)
    (s : Nat) (t : ReferenceTrajectory) (rest : List ReferenceTrajectory) (h : Heap)
    (f : Failure)
    (hp : (c.process (c.setupAt s).alignmentUpdator t alg.theParameterStore alg.theNavigator
      (c.setupAt s).metricsUpdator h).2 = .error f) :
    (processTrajectories c alg s (t :: rest) h).events =
        [Event.process (c.setupAt s).alignmentUpdator t alg.theParameterStore alg.theNavigator
          (c.setupAt s).metricsUpdator (.error f)] ∧
      (processTrajectories c alg s (t :: rest) h).result = .error f := by
  simp [processTrajectories, hp]

theorem processTrajectories_cons_ok (c : Collaborators) (alg : KalmanAlignmentAlgorithm)
    (s : Nat) (t : ReferenceTrajectory) (rest : List ReferenceTrajectory) (h : Heap)
    (hp : (c.process (c.setupAt s).alignmentUpdator t alg.theParameterStore alg.theNavigator
      (c.setupAt s).metricsUpdator h).2 = .ok ()) :
    (processTrajectories c alg s (t :: rest) h).events =
        Event.process (c.setupAt s).alignmentUpdator t alg.theParameterStore alg.theNavigator
          (c.setupAt s).metricsUpdator (.ok ()) ::
        Event.fillHistogram "Trajectory_RecHits" t.recHits.length ::
        (processTrajectories c alg s rest (c.process (c.setupAt s).alignmentUpdator t
          alg.theParameterStore alg.theNavigator (c.setupAt s).metricsUpdator h).1).events ∧
      (processTrajectories c alg s (t :: rest) h).result =
        (processTrajectories c alg s rest (c.process (c.setupAt s).alignmentUpdator t
          alg.theParameterStore alg.theNavigator (c.setupAt s).metricsUpdator h).1).result := by
  simp [processTrajectories, hp]

theorem processTrajectories_spec (c : Collaborators) (alg : KalmanAlignmentAlgorithm) (s : Nat)
    (trajs : List ReferenceTrajectory) (h : Heap) :
    (processTrajectories c alg s trajs h).events.filterMap Event.factoryCall? = [] ∧
    (processTrajectories c alg s trajs h).events.filterMap Event.factoryReturn? = [] ∧
    (∀ e ∈ (processTrajectories c alg s trajs h).events, e.isTerminateStart = false) ∧
    ((processTrajectories c alg s trajs h).result = .ok () →
      (processTrajectories c alg s trajs h).events.filterMap Event.processCall? =
        trajs.map (processCallFor c alg s) ∧
      (processTrajectories c alg s trajs h).events.filterMap Event.failure? = []) ∧
    (∀ f, (processTrajectories c alg s trajs h).result = .error f →
      ∃ pre last, (processTrajectories c alg s trajs h).events = pre ++ [last] ∧
        last.failure? = some f ∧ pre.filterMap Event.failure? = []) := by
  induction trajs generalizing h with
  | nil => simp [processTrajectories]
  | cons t rest ih =>
    cases hp : (c.process (c.setupAt s).alignmentUpdator t alg.theParameterStore
        alg.theNavigator (c.setupAt s).metricsUpdator h).2 with
    | error f =>
      obtain ⟨hev, hres⟩ := processTrajectories_cons_error c alg s t rest h f hp
      rw [hev, hres]
      refine ⟨by simp [Event.factoryCall?], by simp [Event.factoryReturn?],
        by simp [Event.isTerminateStart], by simp, ?_⟩
      intro g hg
      refine ⟨[], _, rfl, ?_, rfl⟩
      simp only [Raised.error.injEq] at hg
      simp [Event.failure?, Raised.failure?, hg]
    | ok u =>
      cases u
      obtain ⟨hev, hres⟩ := processTrajectories_cons_ok c alg s t rest h hp
      obtain ⟨i1, i2, i3, i4, i5⟩ := ih (c.process (c.setupAt s).alignmentUpdator t
        alg.theParameterStore alg.theNavigator (c.setupAt s).metricsUpdator h).1
      rw [hev, hres]
      refine ⟨by simpa [Event.factoryCall?] using i1, by simpa [Event.factoryReturn?] using i2,
        ?_, ?_, ?_⟩
      · intro e he
        rcases List.mem_cons.1 he with rfl | he
        · rfl
        · rcases List.mem_cons.1 he with rfl | he
          · rfl
          · exact i3 e he
      · intro hok
        obtain ⟨j1, j2⟩ := i4 hok
        refine ⟨?_, ?_⟩
        · simp [Event.processCall?, j1, processCallFor]
        · simp [Event.failure?, Raised.failure?, j2]
      · intro f hf
        obtain ⟨pre, last, k1, k2, k3⟩ := i5 f hf
        refine ⟨_ :: _ :: pre, last, by rw [k1]; rfl, k2, ?_⟩
        simp [Event.failure?, Raised.failure?, k3]

theorem processSetups_cons_error (c : Collaborators) (alg : KalmanAlignmentAlgorithm)
    (es s : Nat) (group : List Tracklet) (rest : List (Nat × List Tracklet)) (h : Heap)
    (f : Failure)
    (hf : (c.trajectories (c.setupAt s).trajectoryFactory es
      (group.map fun t => t.trajTrackPair) (group.map fun t => t.externalPrediction) h).2 =
        .error f) :
    (processSetups c alg es ((s, group) :: rest) h).events =
        [Event.trajectories (c.setupAt s).trajectoryFactory es
          (group.map fun t => t.trajTrackPair) (group.map fun t => t.externalPrediction)
          (.error f)] ∧
      (processSetups c alg es ((s, group) :: rest) h).result = .error f := by
  simp [processSetups, hf]

theorem processSetups_cons_ok_error (c : Collaborators) (alg : KalmanAlignmentAlgorithm)
    (es s : Nat) (group : List Tracklet) (rest : List (Nat × List Tracklet)) (h : Heap)
    (trajs : List ReferenceTrajectory) (f : Failure)
    (hf : (c.trajectories (c.setupAt s).trajectoryFactory es
      (group.map fun t => t.trajTrackPair) (group.map fun t => t.externalPrediction) h).2 =
        .ok trajs)
    (hu : (processTrajectories c alg s trajs (c.trajectories (c.setupAt s).trajectoryFactory es
      (group.map fun t => t.trajTrackPair) (group.map fun t => t.externalPrediction) h).1).result =
        .error f) :
    (processSetups c alg es ((s, group) :: rest) h).events =
        Event.trajectories (c.setupAt s).trajectoryFactory es
          (group.map fun t => t.trajTrackPair) (group.map fun t => t.externalPrediction)
          (.ok trajs) ::
        (processTrajectories c alg s trajs (c.trajectories (c.setupAt s).trajectoryFactory es
          (group.map fun t => t.trajTrackPair) (group.map fun t => t.externalPrediction)
          h).1).events ∧
      (processSetups c alg es ((s, group) :: rest) h).result = .error f := by
  simp [processSetups, hf, hu]

theorem processSetups_cons_ok_ok (c : Collaborators) (alg : KalmanAlignmentAlgorithm)
    (es s : Nat) (group : List Tracklet) (rest : List (Nat × List Tracklet)) (h : Heap)
    (trajs : List ReferenceTrajectory)
    (hf : (c.trajectories (c.setupAt s).trajectoryFactory es
      (group.map fun t => t.trajTrackPair) (group.map fun t => t.externalPrediction) h).2 =
        .ok trajs)
    (hu : (processTrajectories c alg s trajs (c.trajectories (c.setupAt s).trajectoryFactory es
      (group.map fun t => t.trajTrackPair) (group.map fun t => t.externalPrediction) h).1).result =
        .ok ()) :
    (processSetups c alg es ((s, group) :: rest) h).events =
        Event.trajectories (c.setupAt s).trajectoryFactory es
          (group.map fun t => t.trajTrackPair) (group.map fun t => t.externalPrediction)
          (.ok trajs) ::
        ((processTrajectories c alg s trajs (c.trajectories (c.setupAt s).trajectoryFactory es
          (group.map fun t => t.trajTrackPair) (group.map fun t => t.externalPrediction)
          h).1).events ++
        (processSetups c alg es rest (processTrajectories c alg s trajs
          (c.trajectories (c.setupAt s).trajectoryFactory es
            (group.map fun t => t.trajTrackPair) (group.map fun t => t.externalPrediction)
            h).1).heap).events) ∧
      (processSetups c alg es ((s, group) :: rest) h).result =
        (processSetups c alg es rest (processTrajectories c alg s trajs
          (c.trajectories (c.setupAt s).trajectoryFactory es
            (group.map fun t => t.trajTrackPair) (group.map fun t => t.externalPrediction)
            h).1).heap).result := by
  simp [processSetups, hf, hu]

theorem processSetups_spec (c : Collaborators) (alg : KalmanAlignmentAlgorithm) (es : Nat)
    (m : List (Nat × List Tracklet)) (h : Heap) :
    (∃ missing, (processSetups c alg es m h).events.filterMap Event.factoryCall? ++ missing =
      m.map (entryCall c es)) ∧
    (∀ e ∈ (processSetups c alg es m h).events, e.isTerminateStart = false) ∧
    ((processSetups c alg es m h).result = .ok () →
      (processSetups c alg es m h).events.filterMap Event.factoryCall? =
        m.map (entryCall c es) ∧
      (processSetups c alg es m h).events.filterMap Event.failure? = [] ∧
      ∃ visits : List (Nat × List ReferenceTrajectory),
        visits.map Prod.fst = m.map Prod.fst ∧
        (processSetups c alg es m h).events.filterMap Event.factoryReturn? =
          visits.map (visitReturn c) ∧
        (processSetups c alg es m h).events.filterMap Event.processCall? =
          visits.flatMap (visitCalls c alg)) ∧
    (∀ f, (processSetups c alg es m h).result = .error f →
      ∃ pre last, (processSetups c alg es m h).events = pre ++ [last] ∧
        last.failure? = some f ∧ pre.filterMap Event.failure? = []) := by
  induction m generalizing h with
  | nil => simp [processSetups]
  | cons a rest ih =>
    obtain ⟨s, group⟩ := a
    cases hf : (c.trajectories (c.setupAt s).trajectoryFactory es
        (group.map fun t => t.trajTrackPair) (group.map fun t => t.externalPrediction) h).2 with
    | error f =>
      obtain ⟨hev, hres⟩ := processSetups_cons_error c alg es s group rest h f hf
      rw [hev, hres]
      refine ⟨⟨rest.map (entryCall c es), by simp [Event.factoryCall?, entryCall]⟩,
        by simp [Event.isTerminateStart], by simp, ?_⟩
      intro g hg
      refine ⟨[], _, rfl, ?_, rfl⟩
      simp only [Raised.error.injEq] at hg
      simp [Event.failure?, Raised.failure?, hg]
    | ok trajs =>
      obtain ⟨t1, t2, t3, t4, t5⟩ := processTrajectories_spec c alg s trajs
        (c.trajectories (c.setupAt s).trajectoryFactory es
          (group.map fun t => t.trajTrackPair) (group.map fun t => t.externalPrediction) h).1
      cases hu : (processTrajectories c alg s trajs
          (c.trajectories (c.setupAt s).trajectoryFactory es
            (group.map fun t => t.trajTrackPair) (group.map fun t => t.externalPrediction)
            h).1).result with
      | error f =>
        obtain ⟨hev, hres⟩ := processSetups_cons_ok_error c alg es s group rest h trajs f hf hu
        rw [hev, hres]
        refine ⟨⟨rest.map (entryCall c es), by simp [Event.factoryCall?, entryCall, t1]⟩,
          ?_, by simp, ?_⟩
        · intro e he
          rcases List.mem_cons.1 he with rfl | he
          · rfl
          · exact t3 e he
        · intro g hg
          simp only [Raised.error.injEq] at hg
          subst hg
          obtain ⟨pre, last, k1, k2, k3⟩ := t5 f hu
          rw [k1]
          refine ⟨_ :: pre, last, rfl, k2, ?_⟩
          simp [Event.failure?, Raised.failure?, k3]
      | ok u =>
        cases u
        obtain ⟨hev, hres⟩ := processSetups_cons_ok_ok c alg es s group rest h trajs hf hu
        obtain ⟨⟨missing, i1⟩, i2, i3, i4⟩ := ih (processTrajectories c alg s trajs
          (c.trajectories (c.setupAt s).trajectoryFactory es
            (group.map fun t => t.trajTrackPair) (group.map fun t => t.externalPrediction)
            h).1).heap
        obtain ⟨u1, u2⟩ := t4 hu
        rw [hev, hres]
        refine ⟨⟨missing, ?_⟩, ?_, ?_, ?_⟩
        · simp [Event.factoryCall?, entryCall, t1, i1]
        · intro e he
          rcases List.mem_cons.1 he with rfl | he
          · rfl
          · rcases List.mem_append.1 he with he | he
            · exact t3 e he
            · exact i2 e he
        · intro hok
          obtain ⟨j1, j2, visits, j3, j4, j5⟩ := i3 hok
          refine ⟨by simp [Event.factoryCall?, entryCall, t1, j1],
            by simp [Event.failure?, Raised.failure?, u2, j2],
            (s, trajs) :: visits, by simp [j3], ?_, ?_⟩
          · simp [Event.factoryReturn?, visitReturn, t2, j4]
          · simp [Event.processCall?, visitCalls, u1, j5]
        · intro f hfail
          obtain ⟨pre, last, k1, k2, k3⟩ := i4 f hfail
          rw [k1, ← List.append_assoc, ← List.cons_append]
          refine ⟨_, last, rfl, k2, ?_⟩
          simp [Event.failure?, Raised.failure?, u2, k3]

/-! ## run: grouping of the tracklets -/

theorem setupToTrackletMap_append (ts : List Tracklet) (t : Tracklet) :
    setupToTrackletMap (ts ++ [t]) = mapPushBack t.trackingSetup t (setupToTrackletMap ts) := by
  simp [setupToTrackletMap, List.foldl_append]

theorem trackletsOf_append (ts : List Tracklet) (t : Tracklet) (s : Nat) :
    trackletsOf (ts ++ [t]) s =
      if t.trackingSetup = s then trackletsOf ts s ++ [t] else trackletsOf ts s := by
  unfold trackletsOf
  by_cases hs : t.trackingSetup = s <;> simp [List.filter_append, List.filter_cons, hs]

theorem setupToTrackletMap_invariant (ts : List Tracklet) :
    ((setupToTrackletMap ts).map Prod.fst).Sorted (· < ·) ∧
    (∀ s, s ∈ (setupToTrackletMap ts).map Prod.fst ↔ ∃ t ∈ ts, t.trackingSetup = s) ∧
    (∀ s, (mapFind s (setupToTrackletMap ts)).getD [] = trackletsOf ts s) := by
  induction ts using List.reverseRecOn with
  | nil => simp [setupToTrackletMap, mapFind, trackletsOf]
  | append_singleton ts t ih =>
    obtain ⟨h1, h2, h3⟩ := ih
    rw [setupToTrackletMap_append]
    refine ⟨?_, ?_, ?_⟩
    · rw [keys_mapPushBack]
      exact sorted_setInsert _ _ h1
    · intro s
      rw [keys_mapPushBack, mem_setInsert, h2]
      constructor
      · rintro (rfl | ⟨u, hu, rfl⟩)
        · exact ⟨t, by simp, rfl⟩
        · exact ⟨u, by simp [hu], rfl⟩
      · rintro ⟨u, hu, rfl⟩
        rcases List.mem_append.1 hu with hu | hu
        · exact Or.inr ⟨u, hu, rfl⟩
        · left
          simp only [List.mem_singleton] at hu
          rw [hu]
    · intro s
      rw [mapFind_mapPushBack _ _ _ _ h1, trackletsOf_append]
      by_cases hs : s = t.trackingSetup
      · subst hs
        simp [h3]
      · have hs2 : ¬ t.trackingSetup = s := fun heq => hs heq.symm
        simp [hs, hs2, h3]

theorem setupToTrackletMap_eq (ts : List Tracklet) :
    setupToTrackletMap ts =
      ((setupToTrackletMap ts).map Prod.fst).map (fun s => (s, trackletsOf ts s)) := by
  obtain ⟨h1, -, h3⟩ := setupToTrackletMap_invariant ts
  conv_lhs => rw [map_eq_of_nodup_keys _ (nodup_of_sorted_lt _ h1)]
  exact List.map_congr_left fun s _ => by rw [h3]

theorem map_entryCall_setupToTrackletMap (c : Collaborators) (es : Nat) (ts : List Tracklet) :
    (setupToTrackletMap ts).map (entryCall c es) =
      ((setupToTrackletMap ts).map Prod.fst).map (factoryCallFor c es ts) := by
  conv_lhs => rw [setupToTrackletMap_eq]
  simp [entryCall, factoryCallFor, Function.comp_def]

/-! ## run: the try block and the handler -/

theorem projections_of_not_tracking (e : Event) (he : e.isTrackingCall = false) :
    e.factoryCall? = none ∧ e.factoryReturn? = none ∧ e.processCall? = none ∧
    e.failure? = none := by
  cases e <;> simp_all [Event.isTrackingCall, Event.factoryCall?, Event.factoryReturn?,
    Event.processCall?, Event.failure?]

theorem terminate_no_tracking (c : Collaborators) (alg : KalmanAlignmentAlgorithm) (h : Heap) :
    ∀ e ∈ (terminate c alg h).2, e.isTrackingCall = false := by
  have hspec := finalizeAlignables_spec c h _
    (nodup_of_sorted_lt _ (sorted_allAlignables c h)) h (fun _ _ => rfl)
  intro e he
  rw [terminate_events] at he
  simp only [List.mem_append, List.mem_cons, List.mem_singleton, List.not_mem_nil,
    or_false] at he
  rcases he with (((rfl | he) | he) | he) | he
  · rfl
  · exact (collectAlignables_events c h _ _ e he).1
  · exact (hspec.2.2 e he).1
  · exact (writeParameters_events c _ _ _ e he).1
  · rcases he with rfl | rfl | rfl | rfl | rfl <;> rfl

theorem filter_eq_nil_of_forall {α : Type} (p : α → Bool) (l : List α)
    (hl : ∀ e ∈ l, p e = false) : l.filter p = [] := by
  induction l with
  | nil => rfl
  | cons a l ih =>
    rw [List.filter_cons, hl a (List.mem_cons_self a l)]
    exact ih fun e he => hl e (List.mem_cons_of_mem a he)

theorem terminate_starts_once (c : Collaborators) (alg : KalmanAlignmentAlgorithm) (h : Heap) :
    (terminate c alg h).2.filter Event.isTerminateStart = [Event.coutTerminateStart] := by
  have hspec := finalizeAlignables_spec c h _
    (nodup_of_sorted_lt _ (sorted_allAlignables c h)) h (fun _ _ => rfl)
  rw [terminate_events]
  simp only [List.filter_append]
  rw [filter_eq_nil_of_forall _ (collectAlignables c h c.getTrackingSetups []).2
      (fun e he => (collectAlignables_events c h _ _ e he).2.1),
    filter_eq_nil_of_forall _ (finalizeAlignables c (allAlignables c h) h).2.1
      (fun e he => (hspec.2.2 e he).2.1),
    filter_eq_nil_of_forall _ (writeParameters c alg.theConfiguration _ _).2
      (fun e he => (writeParameters_events c _ _ _ e he).2.1)]
  simp [Event.isTerminateStart]

theorem runBody_refit_error (c : Collaborators) (alg : KalmanAlignmentAlgorithm) (es : Nat)
    (tracks : List Nat) (h : Heap) (f : Failure)
    (hr : (c.refitTracks es tracks h).2 = .error f) :
    (runBody c alg es tracks h).events = [Event.refitTracks es tracks (.error f)] ∧
      (runBody c alg es tracks h).result = .error f := by
  simp [runBody, hr]

theorem runBody_refit_ok (c : Collaborators) (alg : KalmanAlignmentAlgorithm) (es : Nat)
    (tracks : List Nat) (h : Heap) (ts : List Tracklet)
    (hr : (c.refitTracks es tracks h).2 = .ok ts) :
    (runBody c alg es tracks h).events =
        Event.refitTracks es tracks (.ok ts) ::
          (processSetups c alg es (setupToTrackletMap ts) (c.refitTracks es tracks h).1).events ∧
      (runBody c alg es tracks h).result =
        (processSetups c alg es (setupToTrackletMap ts) (c.refitTracks es tracks h).1).result := by
  simp [runBody, hr]

theorem runBody_spec (c : Collaborators) (alg : KalmanAlignmentAlgorithm) (es : Nat)
    (tracks : List Nat) (h : Heap) :
    (∃ missing, (runBody c alg es tracks h).events.filterMap Event.factoryCall? ++ missing =
      (visitedSetups c es tracks h).map
        (factoryCallFor c es (refittedTracklets c es tracks h))) ∧
    (∀ e ∈ (runBody c alg es tracks h).events, e.isTerminateStart = false) ∧
    ((runBody c alg es tracks h).result = .ok () →
      (runBody c alg es tracks h).events.filterMap Event.factoryCall? =
        (visitedSetups c es tracks h).map
          (factoryCallFor c es (refittedTracklets c es tracks h)) ∧
      (runBody c alg es tracks h).events.filterMap Event.failure? = [] ∧
      ∃ visits : List (Nat × List ReferenceTrajectory),
        visits.map Prod.fst = visitedSetups c es tracks h ∧
        (runBody c alg es tracks h).events.filterMap Event.factoryReturn? =
          visits.map (visitReturn c) ∧
        (runBody c alg es tracks h).events.filterMap Event.processCall? =
          visits.flatMap (visitCalls c alg)) ∧
    (∀ f, (runBody c alg es tracks h).result = .error f →
      ∃ pre last, (runBody c alg es tracks h).events = pre ++ [last] ∧
        last.failure? = some f ∧ pre.filterMap Event.failure? = []) := by
  cases hr : (c.refitTracks es tracks h).2 with
  | error f =>
    obtain ⟨hev, hres⟩ := runBody_refit_error c alg es tracks h f hr
    rw [hev, hres]
    refine ⟨⟨(visitedSetups c es tracks h).map
        (factoryCallFor c es (refittedTracklets c es tracks h)), by simp [Event.factoryCall?]⟩,
      by simp [Event.isTerminateStart], by simp, ?_⟩
    intro g hg
    refine ⟨[], _, rfl, ?_, rfl⟩
    simp only [Raised.error.injEq] at hg
    simp [Event.failure?, Raised.failure?, hg]
  | ok ts =>
    obtain ⟨hev, hres⟩ := runBody_refit_ok c alg es tracks h ts hr
    have hts : refittedTracklets c es tracks h = ts := by simp [refittedTracklets, hr]
    obtain ⟨⟨missing, i1⟩, i2, i3, i4⟩ :=
      processSetups_spec c alg es (setupToTrackletMap ts) (c.refitTracks es tracks h).1
    rw [hev, hres]
    unfold visitedSetups
    rw [hts, ← map_entryCall_setupToTrackletMap]
    refine ⟨⟨missing, by simpa [Event.factoryCall?] using i1⟩, ?_, ?_, ?_⟩
    · intro e he
      rcases List.mem_cons.1 he with rfl | he
      · rfl
      · exact i2 e he
    · intro hok
      obtain ⟨j1, j2, visits, j3, j4, j5⟩ := i3 hok
      exact ⟨by simpa [Event.factoryCall?] using j1,
        by simpa [Event.failure?, Raised.failure?] using j2,
        visits, j3, by simpa [Event.factoryReturn?] using j4,
        by simpa [Event.processCall?] using j5⟩
    · intro f hfail
      obtain ⟨pre, last, k1, k2, k3⟩ := i4 f hfail
      rw [k1]
      exact ⟨_ :: pre, last, rfl, k2, by simpa [Event.failure?, Raised.failure?] using k3⟩

theorem eventBanner_events (alg : KalmanAlignmentAlgorithm) :
    ∀ e ∈ eventBanner alg, e.isTrackingCall = false ∧ e.isTerminateStart = false := by
  intro e he
  unfold eventBanner at he
  split_ifs at he
  · simp only [List.mem_singleton] at he
    subst he
    exact ⟨rfl, rfl⟩
  · exact absurd he (List.not_mem_nil _)

theorem run_body_ok (c : Collaborators) (alg : KalmanAlignmentAlgorithm) (es : Nat)
    (tracks : List Nat) (h : Heap)
    (hb : (runBody c { alg with iEvent := alg.iEvent + 1 } es tracks h).result = .ok ()) :
    (run c alg es tracks h).2.events =
        eventBanner alg ++ (runBody c { alg with iEvent := alg.iEvent + 1 } es tracks h).events ∧
      (run c alg es tracks h).2.result = .ok () := by
  simp [run, hb]

theorem run_body_error (c : Collaborators) (alg : KalmanAlignmentAlgorithm) (es : Nat)
    (tracks : List Nat) (h : Heap) (f : Failure)
    (hb : (runBody c { alg with iEvent := alg.iEvent + 1 } es tracks h).result = .error f) :
    (run c alg es tracks h).2.events =
        eventBanner alg ++ (runBody c { alg with iEvent := alg.iEvent + 1 } es tracks h).events ++
          [Event.coutException f] ++
          (terminate c { alg with iEvent := alg.iEvent + 1 }
            (runBody c { alg with iEvent := alg.iEvent + 1 } es tracks h).heap).2 ∧
      (run c alg es tracks h).2.result = .error f := by
  simp [run, hb]

theorem forall_of_filterMap_eq_nil {α β : Type} (f : α → Option β) (l : List α)
    (hl : l.filterMap f = []) : ∀ e ∈ l, f e = none := by
  induction l with
  | nil => intro e he; exact absurd he (List.not_mem_nil _)
  | cons a l ih =>
    rw [List.filterMap_cons] at hl
    cases ha : f a with
    | some b => rw [ha] at hl; exact absurd hl (List.cons_ne_nil _ _)
    | none =>
      rw [ha] at hl
      intro e he
      rcases List.mem_cons.1 he with rfl | he
      · exact ha
      · exact ih hl e he

/-- C1: in an event in which no failure is raised, the `process` calls made by `run` are
the concatenation, over the setups visited (in map order), of the trajectories returned
by that setup's factory, in the returned order; each call is made on that setup's
alignment updator with the shared parameter store, the navigator and that setup's
metrics updator. -/
theorem run_processes_factory_output_in_order (c : Collaborators)
    (alg : KalmanAlignmentAlgorithm) (es : Nat) (tracks : List Nat) (h : Heap)
    (hok : (run c alg es tracks h).2.result = .ok ()) :
    ∃ visits : List (Nat × List ReferenceTrajectory),
      visits.map Prod.fst = visitedSetups c es tracks h ∧
      (run c alg es tracks h).2.events.filterMap Event.factoryReturn? =
        visits.map (visitReturn c) ∧
      (run c alg es tracks h).2.events.filterMap Event.processCall? =
        visits.flatMap (fun v => v.2.map (processCallFor c alg v.1)) := by
  cases hb : (runBody c { alg with iEvent := alg.iEvent + 1 } es tracks h).result with
  | error f =>
    rw [(run_body_error c alg es tracks h f hb).2] at hok
    exact absurd hok (by simp)
  | ok u =>
    cases u
    obtain ⟨-, -, i3, -⟩ := runBody_spec c { alg with iEvent := alg.iEvent + 1 } es tracks h
    obtain ⟨-, -, visits, j3, j4, j5⟩ := i3 hb
    have hbanner := eventBanner_events alg
    refine ⟨visits, j3, ?_, ?_⟩
    · rw [(run_body_ok c alg es tracks h hb).1, List.filterMap_append,
        filterMap_eq_nil_of_forall _ _
          (fun e he => (projections_of_not_tracking e (hbanner e he).1).2.1), j4]
      rfl
    · rw [(run_body_ok c alg es tracks h hb).1, List.filterMap_append,
        filterMap_eq_nil_of_forall _ _
          (fun e he => (projections_of_not_tracking e (hbanner e he).1).2.2.1), j5]
      rfl

/-- Witness for C1: an event with two tracks for setup 1 and one for setup 2. -/
theorem run_processes_factory_output_in_order_witness :
    ∃ visits : List (Nat × List ReferenceTrajectory),
      visits.map Prod.fst = visitedSetups (sampleCollaborators 0) 0 [2, 3, 4] emptyHeap ∧
      (run (sampleCollaborators 0) sampleAlgorithm 0 [2, 3, 4] emptyHeap).2.events.filterMap
        Event.factoryReturn? = visits.map (visitReturn (sampleCollaborators 0)) ∧
      (run (sampleCollaborators 0) sampleAlgorithm 0 [2, 3, 4] emptyHeap).2.events.filterMap
        Event.processCall? =
        visits.flatMap
          (fun v => v.2.map (processCallFor (sampleCollaborators 0) sampleAlgorithm v.1)) :=
  run_processes_factory_output_in_order (sampleCollaborators 0) sampleAlgorithm 0 [2, 3, 4]
    emptyHeap (by decide)

/-- C2 (amended): the setups visited are in strictly ascending address order, and a setup
is visited exactly when it produced at least one refitted tracklet.  The factory calls
made by `run` are an initial segment of the list that holds, for each visited setup in
that order, one call of that setup's factory on the trajectory/track pairs and the
external predictions of exactly the tracklets of that setup, in the order of the
refitter's output; when `run` raises no failure the calls are the whole list. -/
theorem run_factory_calls_grouped (c : Collaborators) (alg : KalmanAlignmentAlgorithm)
    (es : Nat) (tracks : List Nat) (h : Heap) :
    (visitedSetups c es tracks h).Sorted (· < ·) ∧
    (∀ s, s ∈ visitedSetups c es tracks h ↔
      ∃ t ∈ refittedTracklets c es tracks h, t.trackingSetup = s) ∧
    (∃ missing, (run c alg es tracks h).2.events.filterMap Event.factoryCall? ++ missing =
      (visitedSetups c es tracks h).map
        (factoryCallFor c es (refittedTracklets c es tracks h))) ∧
    ((run c alg es tracks h).2.result = .ok () →
      (run c alg es tracks h).2.events.filterMap Event.factoryCall? =
        (visitedSetups c es tracks h).map
          (factoryCallFor c es (refittedTracklets c es tracks h))) := by
  obtain ⟨g1, g2, -⟩ := setupToTrackletMap_invariant (refittedTracklets c es tracks h)
  obtain ⟨⟨missing, i1⟩, -, i3, -⟩ :=
    runBody_spec c { alg with iEvent := alg.iEvent + 1 } es tracks h
  have hbanner := eventBanner_events alg
  have hb0 : (eventBanner alg).filterMap Event.factoryCall? = [] :=
    filterMap_eq_nil_of_forall _ _
      (fun e he => (projections_of_not_tracking e (hbanner e he).1).1)
  refine ⟨g1, g2, ?_, ?_⟩
  · cases hb : (runBody c { alg with iEvent := alg.iEvent + 1 } es tracks h).result with
    | ok u =>
      cases u
      refine ⟨missing, ?_⟩
      rw [(run_body_ok c alg es tracks h hb).1, List.filterMap_append, hb0]
      exact i1
    | error f =>
      refine ⟨missing, ?_⟩
      rw [(run_body_error c alg es tracks h f hb).1]
      simp only [List.filterMap_append, hb0]
      rw [filterMap_eq_nil_of_forall _ (terminate c _ _).2
        (fun e he => (projections_of_not_tracking e (terminate_no_tracking c _ _ e he)).1)]
      simpa [Event.factoryCall?] using i1
  · intro hok
    cases hb : (runBody c { alg with iEvent := alg.iEvent + 1 } es tracks h).result with
    | error f =>
      rw [(run_body_error c alg es tracks h f hb).2] at hok
      exact absurd hok (by simp)
    | ok u =>
      cases u
      rw [(run_body_ok c alg es tracks h hb).1, List.filterMap_append, hb0]
      exact (i3 hb).1

/-- Witness for C2 (amended): an event without failure, two tracks for setup 1 and one
for setup 2. -/
theorem run_factory_calls_grouped_witness :
    (run (sampleCollaborators 0) sampleAlgorithm 0 [2, 3, 4] emptyHeap).2.result = .ok () ∧
    (run (sampleCollaborators 0) sampleAlgorithm 0 [2, 3, 4] emptyHeap).2.events.filterMap
      Event.factoryCall? =
      (visitedSetups (sampleCollaborators 0) 0 [2, 3, 4] emptyHeap).map
        (factoryCallFor (sampleCollaborators 0) 0
          (refittedTracklets (sampleCollaborators 0) 0 [2, 3, 4] emptyHeap)) :=
  ⟨by decide,
    (run_factory_calls_grouped (sampleCollaborators 0) sampleAlgorithm 0 [2, 3, 4]
      emptyHeap).2.2.2 (by decide)⟩

/-- Counterexample to C2 as stated: the refitter returns a tracklet of setup 1 and a
tracklet of setup 2, the updator of setup 1 raises a failure, and the factory of setup 2
(address 102) is never invoked although setup 2 produced a tracklet. -/
theorem run_skips_later_setup_after_failure :
    (∃ t ∈ refittedTracklets (sampleCollaborators 201) 0 [2, 3] emptyHeap,
      t.trackingSetup = 2) ∧
    ((run (sampleCollaborators 201) sampleAlgorithm 0 [2, 3] emptyHeap).2.events.filterMap
      Event.factoryCall?).count
        (factoryCallFor (sampleCollaborators 201) 0
          (refittedTracklets (sampleCollaborators 201) 0 [2, 3] emptyHeap) 2) = 0 ∧
    (run (sampleCollaborators 201) sampleAlgorithm 0 [2, 3] emptyHeap).2.events.filterMap
      Event.factoryCall? = [(101, 0, [2], [12])] := by
  decide

/-- C4: if a refit, a factory call or a `process` call made by `run` raises failure `f`,
then `run` ends by throwing `f`; the failing call is followed only by the line printing
the exception and by one execution of `terminate` on the heap left by the `try` block,
which makes no refit, factory or `process` call; no call before the failing one raised;
and `terminate` is started exactly once during the run. -/
theorem run_failure_cleans_up_and_rethrows (c : Collaborators)
    (alg : KalmanAlignmentAlgorithm) (es : Nat) (tracks : List Nat) (h : Heap)
    (ev : Event) (f : Failure)
    (hev : ev ∈ (run c alg es tracks h).2.events) (hf : ev.failure? = some f) :
    (run c alg es tracks h).2.result = .error f ∧
    (∃ pre, (∀ x ∈ pre, x.failure? = none) ∧
      (run c alg es tracks h).2.events =
        pre ++ ev :: Event.coutException f ::
          (terminate c { alg with iEvent := alg.iEvent + 1 }
            (runBody c { alg with iEvent := alg.iEvent + 1 } es tracks h).heap).2) ∧
    (∀ x ∈ (terminate c { alg with iEvent := alg.iEvent + 1 }
        (runBody c { alg with iEvent := alg.iEvent + 1 } es tracks h).heap).2,
      x.isTrackingCall = false) ∧
    (run c alg es tracks h).2.events.filter Event.isTerminateStart =
      [Event.coutTerminateStart] := by
  obtain ⟨-, i2, i3, i4⟩ := runBody_spec c { alg with iEvent := alg.iEvent + 1 } es tracks h
  have hbanner := eventBanner_events alg
  have hterm := terminate_no_tracking c { alg with iEvent := alg.iEvent + 1 }
    (runBody c { alg with iEvent := alg.iEvent + 1 } es tracks h).heap
  cases hb : (runBody c { alg with iEvent := alg.iEvent + 1 } es tracks h).result with
  | ok u =>
    cases u
    exfalso
    rw [(run_body_ok c alg es tracks h hb).1] at hev
    rcases List.mem_append.1 hev with he | he
    · rw [(projections_of_not_tracking ev (hbanner ev he).1).2.2.2] at hf
      exact Option.noConfusion hf
    · rw [forall_of_filterMap_eq_nil _ _ (i3 hb).2.1 ev he] at hf
      exact Option.noConfusion hf
  | error g =>
    obtain ⟨pre, last, k1, k2, k3⟩ := i4 g hb
    obtain ⟨r1, r2⟩ := run_body_error c alg es tracks h g hb
    have hpre := forall_of_filterMap_eq_nil _ _ k3
    have hlast : ev = last ∧ g = f := by
      rw [r1, k1] at hev
      simp only [List.mem_append, List.mem_singleton] at hev
      rcases hev with ((he | (he | he)) | he) | he
      · rw [(projections_of_not_tracking ev (hbanner ev he).1).2.2.2] at hf
        exact Option.noConfusion hf
      · rw [hpre ev he] at hf
        exact Option.noConfusion hf
      · subst he
        rw [k2] at hf
        exact ⟨rfl, Option.some.inj hf⟩
      · subst he
        exact Option.noConfusion hf
      · rw [(projections_of_not_tracking ev (hterm ev he)).2.2.2] at hf
        exact Option.noConfusion hf
    obtain ⟨h1, h2⟩ := hlast
    subst h1
    subst h2
    refine ⟨r2, ⟨eventBanner alg ++ pre, ?_, ?_⟩, hterm, ?_⟩
    · intro x hx
      rcases List.mem_append.1 hx with hx | hx
      · exact (projections_of_not_tracking x (hbanner x hx).1).2.2.2
      · exact hpre x hx
    · rw [r1, k1]
      simp
    · rw [r1]
      simp only [List.filter_append]
      rw [filter_eq_nil_of_forall _ (eventBanner alg) (fun e he => (hbanner e he).2),
        filter_eq_nil_of_forall _ _ i2, terminate_starts_once]
      simp [Event.isTerminateStart]

/-- Witness for C4: the updator of setup 1 raises `sampleFailure`. -/
theorem run_failure_cleans_up_and_rethrows_witness :
    (run (sampleCollaborators 201) sampleAlgorithm 0 [2, 3] emptyHeap).2.result =
      .error sampleFailure ∧
    (run (sampleCollaborators 201) sampleAlgorithm 0 [2, 3] emptyHeap).2.events.filter
      Event.isTerminateStart = [Event.coutTerminateStart] :=
  have key := run_failure_cleans_up_and_rethrows (sampleCollaborators 201) sampleAlgorithm 0
    [2, 3] emptyHeap (Event.process 201 ⟨2, [101]⟩ 7 9 301 (.error sampleFailure))
    sampleFailure (by decide) (by decide)
  ⟨key.1, key.2.2.2⟩

/-! ## Life-cycle of the navigator -/

/-- C10 (the code at the failing input): in the life-cycle `initialize`, `run`,
`terminate` in which the updator of setup 1 raises during `run`, the navigator created
once by `initialize` at address 9 is released twice: by the `terminate` that `run`
executes as cleanup, and again by the explicit `terminate`. -/
theorem navigator_released_twice_after_failed_run :
    (lifeCycleEvents 201).filterMap Event.newNavigator? = [9] ∧
    (lifeCycleEvents 201).filterMap Event.deleteNavigator? = [9, 9] ∧
    (lifeCycleEvents 201).filter Event.isTerminateStart =
      [Event.coutTerminateStart, Event.coutTerminateStart] := by
  decide

/-! ## Initialization: the randomized shift -/

/-- C6 (the code at the failing input): with only `ApplyYShifts` on, `SigmaYShifts = 1`,
`SigmaZShifts = 2` and a first Gaussian draw equal to 1, the local shift drawn for a
module is `(0, 2, 0)`, that is `SigmaZShifts` times the draw in the y component, and the
module is moved by that vector; the x and z components are 0 and one draw is consumed. -/
theorem random_shift_y_uses_sigma_z :
    (sampleRule false false false false).sigmaYShift = 1 ∧
    (sampleRule false false false false).sigmaZShift = 2 ∧
    (sampleInitCollaborators []).gauss 1726354 0 = 1 ∧
    (drawDisplacement (sampleInitCollaborators [])
      (sampleInitialization true (sampleRule false false false false))
      (sampleRule false false false false)
      (startState (sampleInitialization true (sampleRule false false false false))
        (slotHeap [1]))).1 = [0, 2, 0] ∧
    (drawDisplacement (sampleInitCollaborators [])
      (sampleInitialization true (sampleRule false false false false))
      (sampleRule false false false false)
      (startState (sampleInitialization true (sampleRule false false false false))
        (slotHeap [1]))).2.shots = 1 ∧
    (misalign (sampleInitCollaborators [])
      (sampleInitialization true (sampleRule false false false false))
      (sampleRule false false false false) 1
      (startState (sampleInitialization true (sampleRule false false false false))
        (slotHeap [1]))).events = [Event.setTheSeed 1726354, Event.move 1 [0, 2, 0]] := by
  refine ⟨?_, ?_, ?_, ?_, ?_, ?_⟩ <;> with_unfolding_all rfl

/-! ## Initialization: the snapshot map -/

theorem mem_keys_of_mapFind {α : Type} (k : Nat) (m : List (Nat × List α)) (vs : List α)
    (hk : mapFind k m = some vs) : k ∈ m.map Prod.fst := by
  by_contra hnot
  rw [mapFind_eq_none k m hnot] at hk
  exact Option.noConfusion hk

theorem recordMap_invariant (recs : List AlignmentParameters) :
    ((recs.foldl (fun acc p => mapPushBack p.alignable p acc) []).map Prod.fst).Sorted
      (· < ·) ∧
    (∀ a, a ∈ (recs.foldl (fun acc p => mapPushBack p.alignable p acc) []).map Prod.fst ↔
      ∃ p ∈ recs, p.alignable = a) ∧
    (∀ a, (mapFind a (recs.foldl (fun acc p => mapPushBack p.alignable p acc) [])).getD [] =
      recs.filter fun p => p.alignable = a) := by
  induction recs using List.reverseRecOn with
  | nil => simp [mapFind]
  | append_singleton recs r ih =>
    obtain ⟨h1, h2, h3⟩ := ih
    rw [List.foldl_append, List.foldl_cons, List.foldl_nil]
    refine ⟨?_, ?_, ?_⟩
    · rw [keys_mapPushBack]
      exact sorted_setInsert _ _ h1
    · intro a
      rw [keys_mapPushBack, mem_setInsert, h2]
      constructor
      · rintro (rfl | ⟨u, hu, rfl⟩)
        · exact ⟨r, by simp, rfl⟩
        · exact ⟨u, by simp [hu], rfl⟩
      · rintro ⟨u, hu, rfl⟩
        rcases List.mem_append.1 hu with hu | hu
        · exact Or.inr ⟨u, hu, rfl⟩
        · left
          simp only [List.mem_singleton] at hu
          rw [hu]
    · intro a
      rw [mapFind_mapPushBack _ _ _ _ h1]
      by_cases ha : a = r.alignable
      · subst ha
        simp [h3, List.filter_append, List.filter_cons]
      · have ha2 : ¬ r.alignable = a := fun heq => ha heq.symm
        simp [ha, ha2, h3, List.filter_append, List.filter_cons]

theorem recordMap_back (recs : List AlignmentParameters) (a : Nat) :
    (mapFind a (recs.foldl (fun acc p => mapPushBack p.alignable p acc) []) = none ∧
      mostRecentRecord recs a = none) ∨
    (∃ records back,
      mapFind a (recs.foldl (fun acc p => mapPushBack p.alignable p acc) []) = some records ∧
      records.getLast? = some back ∧ mostRecentRecord recs a = some back) := by
  obtain ⟨-, h2, h3⟩ := recordMap_invariant recs
  have h3a := h3 a
  cases hfind : mapFind a (recs.foldl (fun acc p => mapPushBack p.alignable p acc) []) with
  | none =>
    left
    rw [hfind] at h3a
    simp only [Option.getD_none] at h3a
    exact ⟨rfl, by simp [mostRecentRecord, ← h3a]⟩
  | some records =>
    right
    rw [hfind] at h3a
    simp only [Option.getD_some] at h3a
    obtain ⟨p, hp, hpa⟩ := (h2 a).1 (mem_keys_of_mapFind a _ records hfind)
    have hne : records ≠ [] := by
      rw [h3a]
      intro hnil
      have hmem : p ∈ recs.filter fun q => q.alignable = a := by
        simp [List.mem_filter, hp, hpa]
      rw [hnil] at hmem
      exact absurd hmem (List.not_mem_nil _)
    cases hlast : records.getLast? with
    | none => exact absurd (List.getLast?_eq_none_iff.1 hlast) hne
    | some back => exact ⟨records, back, rfl, hlast, by simp [mostRecentRecord, ← h3a, hlast]⟩

theorem readLoop_map (col : InitCollaborators) (alignables : List Nat) (file : String)
    (fuel iter : Nat) (m m1 : List (Nat × List AlignmentParameters)) (s s1 : InitState)
    (hload : readLoop col alignables file fuel iter m s = .ok (m1, s1)) :
    m1 = (snapshotRecords col alignables file fuel iter).foldl
      (fun acc p => mapPushBack p.alignable p acc) m ∧ s1.heap = s.heap ∧
    s1.shots = s.shots ∧ s1.seed = s.seed ∧ s1.selection = s.selection := by
  induction fuel generalizing iter m s with
  | zero => simp [readLoop] at hload
  | succ fuel ih =>
    rw [readLoop] at hload
    rw [snapshotRecords]
    by_cases hz : (col.readAlignmentParameters alignables file iter).2 = 0
    · simp only [hz, if_true] at hload
      obtain ⟨k1, k2, k3, k4, k5⟩ := ih _ _ _ hload
      simp only [hz, if_true, List.foldl_append]
      exact ⟨k1, k2, k3, k4, k5⟩
    · simp only [hz, if_false, InitResult.ok.injEq, Prod.mk.injEq] at hload
      obtain ⟨k1, k2⟩ := hload
      subst k1
      subst k2
      simp [hz, InitState.emit]

theorem loadSnapshots_map (col : InitCollaborators) (config : RuleConfiguration) (fuel : Nat)
    (alignables : List Nat) (s s1 : InitState) (m1 : List (Nat × List AlignmentParameters))
    (hload : loadSnapshots col config fuel alignables s = .ok (m1, s1)) :
    m1 = (loadedRecords col config fuel alignables).foldl
      (fun acc p => mapPushBack p.alignable p acc) [] ∧ s1.heap = s.heap ∧
    s1.shots = s.shots ∧ s1.seed = s.seed ∧ s1.selection = s.selection := by
  unfold loadSnapshots at hload
  unfold loadedRecords
  by_cases ht : (config.readParam || config.readCovar || config.applyParam ||
      config.applyCovar) = true
  · simp only [ht, if_true] at hload ⊢
    exact readLoop_map col alignables config.file fuel 1 [] m1 s s1 hload
  · rw [if_neg ht] at hload
    rw [if_neg ht]
    simp only [InitResult.ok.injEq, Prod.mk.injEq] at hload
    obtain ⟨k1, k2⟩ := hload
    rw [← k1, ← k2]
    simp

/-! ## Initialization: seeding of the parameter state -/

theorem loadSnapshots_of_value (col : InitCollaborators) (config : RuleConfiguration)
    (fuel : Nat) (alignables : List Nat) (s : InitState)
    (map : List (Nat × List AlignmentParameters))
    (hload : (loadSnapshots col config fuel alignables s).value?.map Prod.fst = some map) :
    ∃ s1, loadSnapshots col config fuel alignables s = .ok (map, s1) := by
  cases hr : loadSnapshots col config fuel alignables s with
  | ok loaded =>
    obtain ⟨m, s1⟩ := loaded
    rw [hr] at hload
    simp only [InitResult.value?, Option.map_some', Option.some.injEq] at hload
    exact ⟨s1, by rw [hload]⟩
  | raised e => rw [hr] at hload; simp [InitResult.value?] at hload
  | nullAccess a => rw [hr] at hload; simp [InitResult.value?] at hload
  | unfinished => rw [hr] at hload; simp [InitResult.value?] at hload

/-- C7 (amended): for a module that carries a parameter slot, after a load that ended
with `alignmentParametersMap = map`, the parameters chosen by the seeding have the vector
of the module's most recent snapshot record when `ReadParametersFromFile` is on and the
module has a snapshot, and the zero start vector otherwise; their covariance is that
record's covariance when both `ReadParametersFromFile` and `ReadCovarianceFromFile` are
on and the module has a snapshot, and the rule's diagonal start-error matrix
otherwise. -/
theorem seeding_reads_covariance_only_with_parameters (col : InitCollaborators)
    (ic : InitializationConfiguration) (config : RuleConfiguration) (fuel : Nat)
    (alignables : List Nat) (s : InitState) (map : List (Nat × List AlignmentParameters))
    (a : Nat) (current : AlignmentParameters)
    (hload : (loadSnapshots col config fuel alignables s).value?.map Prod.fst = some map) :
    ∃ p, seedParameters col ic config map a current = .ok p ∧
      p.parameters =
        (match mostRecentRecord (loadedRecords col config fuel alignables) a with
          | some r => if config.readParam then r.parameters else startParameters
          | none => startParameters) ∧
      p.covariance =
        (match mostRecentRecord (loadedRecords col config fuel alignables) a with
          | some r =>
            if config.readParam && config.readCovar then r.covariance else config.startError
          | none => config.startError) := by
  obtain ⟨s1, hok⟩ := loadSnapshots_of_value col config fuel alignables s map hload
  obtain ⟨hmap, -⟩ := loadSnapshots_map col config fuel alignables s s1 map hok
  rcases recordMap_back (loadedRecords col config fuel alignables) a with
    ⟨hnone, hrec⟩ | ⟨records, back, hsome, hlast, hrec⟩
  · rw [← hmap] at hnone
    rw [hrec]
    refine ⟨defaultParameters col ic config a current, ?_, rfl, rfl⟩
    unfold seedParameters
    simp [hnone]
  · rw [← hmap] at hsome
    rw [hrec]
    unfold seedParameters
    cases hp : config.readParam <;> cases hc : config.readCovar <;>
      simp [hsome, hlast, defaultParameters, AlignmentParameters.clone,
        AlignmentParameters.setUserVariables]

/-- Witness for C7 (amended): both read toggles on, one snapshot record for module 1. -/
theorem seeding_reads_covariance_only_with_parameters_witness :
    ∃ p, seedParameters (sampleInitCollaborators [sampleRecord 1 .rigidBody])
        (sampleInitialization false (sampleRule true true false false))
        (sampleRule true true false false) [(1, [sampleRecord 1 .rigidBody])] 1
        ⟨.rigidBody, 1, startParameters, [], none⟩ = .ok p ∧
      p.parameters =
        (match mostRecentRecord (loadedRecords (sampleInitCollaborators
            [sampleRecord 1 .rigidBody]) (sampleRule true true false false) 2 [1]) 1 with
          | some r =>
            if (sampleRule true true false false).readParam then r.parameters
            else startParameters
          | none => startParameters) ∧
      p.covariance =
        (match mostRecentRecord (loadedRecords (sampleInitCollaborators
            [sampleRecord 1 .rigidBody]) (sampleRule true true false false) 2 [1]) 1 with
          | some r =>
            if (sampleRule true true false false).readParam &&
                (sampleRule true true false false).readCovar then r.covariance
            else (sampleRule true true false false).startError
          | none => (sampleRule true true false false).startError) :=
  seeding_reads_covariance_only_with_parameters
    (sampleInitCollaborators [sampleRecord 1 .rigidBody])
    (sampleInitialization false (sampleRule true true false false))
    (sampleRule true true false false) 2 [1]
    (startState (sampleInitialization false (sampleRule true true false false)) (slotHeap [1]))
    [(1, [sampleRecord 1 .rigidBody])] 1 ⟨.rigidBody, 1, startParameters, [], none⟩
    (by with_unfolding_all rfl)

/-- Counterexample to C7 as stated: with `ReadCovarianceFromFile` on,
`ReadParametersFromFile` off and a snapshot record for module 1, the parameters installed
for module 1 carry the rule's start-error matrix, which differs from the covariance of
the module's most recent snapshot record. -/
theorem covariance_toggle_alone_is_ignored :
    (sampleRule false true false false).readCovar = true ∧
    mostRecentRecord (loadedRecords (sampleInitCollaborators [sampleRecord 1 .rigidBody])
      (sampleRule false true false false) 2 [1]) 1 = some (sampleRecord 1 .rigidBody) ∧
    ((initializeRule (sampleInitCollaborators [sampleRecord 1 .rigidBody]) (fun _ => [1])
        (sampleInitialization false (sampleRule false true false false)) 2 "rule"
        (startState (sampleInitialization false (sampleRule false true false false))
          (slotHeap [1]))).value?.bind fun s => s.heap.alignmentParameters 1).map
      (fun p => p.covariance) = some (sampleRule false true false false).startError ∧
    entry (sampleRule false true false false).startError 0 0 = 4 / 10000 ∧
    entry (sampleRecord 1 .rigidBody).covariance 0 0 = 9 ∧
    (sampleRule false true false false).startError ≠ (sampleRecord 1 .rigidBody).covariance := by
  refine ⟨by with_unfolding_all rfl, by with_unfolding_all rfl, by with_unfolding_all rfl,
    by with_unfolding_all rfl, by with_unfolding_all rfl, ?_⟩
  intro heq
  have h0 : entry (sampleRule false true false false).startError 0 0 =
      entry (sampleRecord 1 .rigidBody).covariance 0 0 := by rw [heq]
  have h1 : entry (sampleRule false true false false).startError 0 0 = 4 / 10000 := by
    with_unfolding_all rfl
  have h2 : entry (sampleRecord 1 .rigidBody).covariance 0 0 = 9 := by
    with_unfolding_all rfl
  rw [h1, h2] at h0
  norm_num at h0

/-! ## Initialization: independence of the selection order -/

theorem sortAlignables_perm (col : InitCollaborators)
    (hirrefl : ∀ a, col.less a a = false)
    (htrans : ∀ a b c, col.less a b = true → col.less b c = true → col.less a c = true)
    (htotal : ∀ a b, a ≠ b → col.less a b = true ∨ col.less b a = true)
    (l1 l2 : List Nat) (hperm : l1.Perm l2) :
    sortAlignables col l1 = sortAlignables col l2 := by
  have hasymm : ∀ a b, col.less a b = true → col.less b a = false := by
    intro a b hab
    cases hba : col.less b a with
    | false => rfl
    | true =>
      have haa := htrans a b a hab hba
      rw [hirrefl a] at haa
      exact Bool.noConfusion haa
  haveI : IsTotal Nat (fun a b => col.less b a = false) := ⟨fun a b => by
    cases hba : col.less b a with
    | false => exact Or.inl rfl
    | true => exact Or.inr (hasymm b a hba)⟩
  haveI : IsAntisymm Nat (fun a b => col.less b a = false) := ⟨fun a b hab hba => by
    by_contra hne
    rcases htotal a b hne with h | h
    · rw [h] at hba
      exact Bool.noConfusion hba
    · rw [h] at hab
      exact Bool.noConfusion hab⟩
  haveI : IsTrans Nat (fun a b => col.less b a = false) := ⟨fun a b c hab hbc => by
    cases hca : col.less c a with
    | false => rfl
    | true =>
      exfalso
      by_cases hbe : a = b
      · subst hbe
        rw [hca] at hbc
        exact Bool.noConfusion hbc
      · rcases htotal a b hbe with h | h
        · have hcb := htrans c a b hca h
          rw [hcb] at hbc
          exact Bool.noConfusion hbc
        · rw [h] at hab
          exact Bool.noConfusion hab⟩
  unfold sortAlignables
  exact List.eq_of_perm_of_sorted
    (((List.perm_insertionSort _ l1).trans hperm).trans (List.perm_insertionSort _ l2).symm)
    (List.sorted_insertionSort _ l1) (List.sorted_insertionSort _ l2)

theorem initializeRules_perm (col : InitCollaborators) (sel1 sel2 : List String → List Nat)
    (ic : InitializationConfiguration) (fuel : Nat)
    (hsort : ∀ selection,
      sortAlignables col (sel1 selection) = sortAlignables col (sel2 selection))
    (rules : List String) (s : InitState) :
    initializeRules col sel1 ic fuel rules s = initializeRules col sel2 ic fuel rules s := by
  induction rules generalizing s with
  | nil => rfl
  | cons r rest ih =>
    have hrule : initializeRule col sel1 ic fuel r s = initializeRule col sel2 ic fuel r s := by
      unfold initializeRule
      simp only [hsort]
    have hrest : initializeRules col sel1 ic fuel rest = initializeRules col sel2 ic fuel rest :=
      funext ih
    rw [initializeRules, initializeRules, hrule, hrest]

/-- C9: when the comparator used by `sort` is a strict total order, the initialization
does not depend on the order in which the selector returns the selected modules: for two
selectors that return, for every selection, permutations of the same modules, and the
same Gaussian stream, configuration and heap, `initializeAlignmentParameters` ends in the
same way, with the same random moves and rotations issued and the same final parameters
of every module. -/
theorem initialization_independent_of_selection_order (col : InitCollaborators)
    (sel1 sel2 : List String → List Nat) (cfg : Configuration) (fuel : Nat) (h : Heap)
    (hirrefl : ∀ a, col.less a a = false)
    (htrans : ∀ a b c, col.less a b = true → col.less b c = true → col.less a c = true)
    (htotal : ∀ a b, a ≠ b → col.less a b = true ∨ col.less b a = true)
    (hperm : ∀ selection, (sel1 selection).Perm (sel2 selection)) :
    initializeAlignmentParameters col sel1 cfg fuel h =
      initializeAlignmentParameters col sel2 cfg fuel h := by
  unfold initializeAlignmentParameters
  exact initializeRules_perm col sel1 sel2 _ fuel
    (fun selection => sortAlignables_perm col hirrefl htrans htotal _ _ (hperm selection)) _ _

/-- Witness for C9: modules 1 and 2 returned in the two possible orders, with a random
y shift. -/
theorem initialization_independent_of_selection_order_witness :
    initializeAlignmentParameters (sampleInitCollaborators []) (fun _ => [2, 1])
        { sampleConfiguration with
          Initialization := sampleInitialization true (sampleRule false false false false) }
        2 (slotHeap [1, 2]) =
      initializeAlignmentParameters (sampleInitCollaborators []) (fun _ => [1, 2])
        { sampleConfiguration with
          Initialization := sampleInitialization true (sampleRule false false false false) }
        2 (slotHeap [1, 2]) :=
  initialization_independent_of_selection_order (sampleInitCollaborators [])
    (fun _ => [2, 1]) (fun _ => [1, 2]) _ 2 (slotHeap [1, 2])
    (fun a => by simp [sampleInitCollaborators])
    (fun a b c hab hbc => by
      simp only [sampleInitCollaborators, decide_eq_true_eq] at hab hbc ⊢
      exact lt_trans hab hbc)
    (fun a b hne => by
      simp only [sampleInitCollaborators, decide_eq_true_eq]
      exact Nat.lt_or_gt_of_ne hne)
    (fun _ => List.Perm.swap 1 2 [])

/-! ## Initialization: the apply-from-file step -/

theorem applyRecords_rigid (col : InitCollaborators) (config : RuleConfiguration) (a : Nat)
    (records : List AlignmentParameters) (s : InitState)
    (hrigid : ∀ p ∈ records, p.kind = .rigidBody) :
    ∃ s1, applyRecords col config a records s = .ok s1 ∧
      s1.heap.alignmentParameters a = s.heap.alignmentParameters a := by
  induction records generalizing s with
  | nil => exact ⟨s, rfl, rfl⟩
  | cons p rest ih =>
    have hp := hrigid p (List.mem_cons_self p rest)
    rw [applyRecords, hp]
    obtain ⟨s1, h1, h2⟩ := ih
      (if config.applyCovar then applyCovariance col a p
        (if config.applyParam then applyParameters col a p s else s)
       else (if config.applyParam then applyParameters col a p s else s))
      (fun q hq => hrigid q (List.mem_cons_of_mem p hq))
    refine ⟨s1, h1, ?_⟩
    rw [h2]
    cases config.applyCovar <;> cases config.applyParam <;>
      simp only [applyCovariance, applyParameters, InitState.setAlignmentPositionError,
        InitState.move, InitState.rotateInLocalFrame, InitState.emit,
        Heap.setAlignmentPositionError, Heap.setSurfaces, Heap.setAlignable,
        Heap.alignmentParameters, if_true, if_false, Bool.false_eq_true] <;>
      split_ifs <;> simp

theorem applyRecords_other (col : InitCollaborators) (config : RuleConfiguration) (a : Nat)
    (records : List AlignmentParameters) (s : InitState)
    (hother : ∃ p ∈ records, p.kind ≠ .rigidBody) :
    applyRecords col config a records s = .raised badConfig := by
  induction records generalizing s with
  | nil =>
    obtain ⟨p, hp, -⟩ := hother
    exact absurd hp (List.not_mem_nil _)
  | cons q rest ih =>
    rw [applyRecords]
    cases hq : q.kind with
    | otherKind tag => rfl
    | rigidBody =>
      obtain ⟨p, hp, hk⟩ := hother
      rcases List.mem_cons.1 hp with rfl | hp
      · exact absurd hq hk
      · exact ih _ ⟨p, hp, hk⟩

/-- C8 (the code at the failing input): `ApplyParametersFromFile` is on, the selected
modules are 1 and 2, module 1 has no parameter slot and a rigid-body snapshot record,
module 2 has a snapshot record of another kind.  The rule does not end by throwing
`BadConfig`: it ends in the access through the null parameter slot of module 1 (line
444), before module 2 is reached. -/
theorem null_slot_preempts_bad_config :
    (sampleRule false false true false).applyParam = true ∧
    mostRecentRecord (loadedRecords
      (sampleInitCollaborators [sampleRecord 1 .rigidBody, sampleRecord 2 (.otherKind 0)])
      (sampleRule false false true false) 2 [1, 2]) 2 = some (sampleRecord 2 (.otherKind 0)) ∧
    (initializeRule
      (sampleInitCollaborators [sampleRecord 1 .rigidBody, sampleRecord 2 (.otherKind 0)])
      (fun _ => [1, 2]) (sampleInitialization false (sampleRule false false true false)) 2
      "rule" (startState (sampleInitialization false (sampleRule false false true false))
        (slotHeap [2]))).raised? = none ∧
    (initializeRule
      (sampleInitCollaborators [sampleRecord 1 .rigidBody, sampleRecord 2 (.otherKind 0)])
      (fun _ => [1, 2]) (sampleInitialization false (sampleRule false false true false)) 2
      "rule" (startState (sampleInitialization false (sampleRule false false true false))
        (slotHeap [2]))).nullAccess? = some 1 := by
  refine ⟨?_, ?_, ?_, ?_⟩ <;> with_unfolding_all rfl

/-! ## Initialization: order of the geometric operations -/

theorem shootIf_state (col : InitCollaborators) (apply : Bool) (sigma : ℚ) (s : InitState) :
    (shootIf col apply sigma s).2.heap = s.heap ∧
    (shootIf col apply sigma s).2.events = s.events ∧
    (shootIf col apply sigma s).2.seed = s.seed := by
  unfold shootIf shoot
  cases apply <;> simp

theorem drawDisplacement_state (col : InitCollaborators) (ic : InitializationConfiguration)
    (config : RuleConfiguration) (s : InitState) :
    (drawDisplacement col ic config s).2.heap = s.heap ∧
    (drawDisplacement col ic config s).2.events = s.events := by
  unfold drawDisplacement
  simp only [shootIf_state]
  exact ⟨trivial, trivial⟩

theorem drawEulerAngles_state (col : InitCollaborators) (ic : InitializationConfiguration)
    (config : RuleConfiguration) (s : InitState) :
    (drawEulerAngles col ic config s).2.heap = s.heap ∧
    (drawEulerAngles col ic config s).2.events = s.events := by
  unfold drawEulerAngles
  simp only [shootIf_state]
  exact ⟨trivial, trivial⟩

theorem shootIf_congr (col : InitCollaborators) (apply : Bool) (sigma : ℚ) (s t : InitState)
    (hseed : s.seed = t.seed) (hshots : s.shots = t.shots) :
    (shootIf col apply sigma s).1 = (shootIf col apply sigma t).1 ∧
    (shootIf col apply sigma s).2.seed = (shootIf col apply sigma t).2.seed ∧
    (shootIf col apply sigma s).2.shots = (shootIf col apply sigma t).2.shots := by
  unfold shootIf shoot
  cases apply <;> simp [hseed, hshots]

theorem drawEulerAngles_congr (col : InitCollaborators) (ic : InitializationConfiguration)
    (config : RuleConfiguration) (s t : InitState)
    (hseed : s.seed = t.seed) (hshots : s.shots = t.shots) :
    (drawEulerAngles col ic config s).1 = (drawEulerAngles col ic config t).1 := by
  unfold drawEulerAngles
  obtain ⟨a1, a2, a3⟩ := shootIf_congr col ic.applyXRots config.sigmaXRot s t hseed hshots
  obtain ⟨b1, b2, b3⟩ := shootIf_congr col ic.applyYRots config.sigmaYRot _ _ a2 a3
  obtain ⟨c1, -, -⟩ := shootIf_congr col ic.applyZRots config.sigmaZRot _ _ b2 b3
  simp only [a1, b1, c1]

theorem surfaces_setSurfaces (h : Heap) (f : Nat → List ℚ) : (h.setSurfaces f).surfaces = f :=
  rfl

theorem applyShift_state (col : InitCollaborators) (ic : InitializationConfiguration) (a : Nat)
    (d : List ℚ) (s : InitState) :
    (applyShift col ic a d s).seed = s.seed ∧ (applyShift col ic a d s).shots = s.shots ∧
    (applyShift col ic a d s).heap.surfaces =
      (if ic.applyShifts then col.move a (col.toGlobal (s.heap.surfaces a) d) s.heap.surfaces
       else s.heap.surfaces) ∧
    (applyShift col ic a d s).events =
      s.events ++ (if ic.applyShifts then
        [Event.move a (col.toGlobal (s.heap.surfaces a) d)] else []) := by
  unfold applyShift
  cases ic.applyShifts <;>
    simp [InitState.move, InitState.emit, surfaces_setSurfaces]

theorem applyRotation_state (col : InitCollaborators) (ic : InitializationConfiguration)
    (a : Nat) (e : List ℚ) (s : InitState) :
    (applyRotation col ic a e s).heap.surfaces =
      (if ic.applyRots then col.rotateInLocalFrame a (col.toMatrix e) s.heap.surfaces
       else s.heap.surfaces) ∧
    (applyRotation col ic a e s).events =
      s.events ++ (if ic.applyRots then
        [Event.rotateInLocalFrame a (col.toMatrix e)] else []) := by
  unfold applyRotation
  cases ic.applyRots <;>
    simp [InitState.rotateInLocalFrame, InitState.emit, surfaces_setSurfaces]

theorem applyCurlRotation_events (col : InitCollaborators) (ic : InitializationConfiguration)
    (a : Nat) (s : InitState) :
    (applyCurlRotation col ic a s).events =
      s.events ++ (if ic.applyCurl then
        [Event.rotateAroundGlobalZ a (ic.curlConst * col.perp (s.heap.surfaces a))] else []) := by
  unfold applyCurlRotation
  cases ic.applyCurl <;> simp [InitState.rotateAroundGlobalZ, InitState.emit]

theorem addStartPositionError_events (col : InitCollaborators)
    (ic : InitializationConfiguration) (config : RuleConfiguration) (a : Nat) (s : InitState) :
    ∃ rest, (∀ e ∈ rest, e.isGeometric = false) ∧
      (addStartPositionError col ic config a s).events = s.events ++ rest := by
  unfold addStartPositionError
  cases ic.addPositionError
  · exact ⟨[], by simp, by simp⟩
  · refine ⟨[Event.setAlignmentPositionError a (col.toGlobal (s.heap.surfaces a)
      [col.sqrt (entry config.startError 0 0), col.sqrt (entry config.startError 1 1),
        col.sqrt (entry config.startError 2 2)])], ?_, ?_⟩
    · intro e he
      simp only [List.mem_singleton] at he
      subst he
      rfl
    · simp [InitState.setAlignmentPositionError, InitState.emit]

/-- C11: the events issued for a module by the randomized-misalignment step are, after
the events already recorded and in this order: one move by the local-to-global transform
of the drawn shift vector exactly when one of the x/y/z shift toggles is on; one rotation
in the local frame by the matrix of the drawn Euler angles exactly when one of the
rotation toggles is on; one rotation about the global z axis by `CurlConstant` times the
transverse radius of the surface as it is after that shift and rotation exactly when
`ApplyCurl` is on; and then events that are not geometric operations.  With all toggles
off there is no geometric operation. -/
theorem misalign_issues_shift_rotation_curl_in_order (col : InitCollaborators)
    (ic : InitializationConfiguration) (config : RuleConfiguration) (a : Nat)
    (s : InitState) :
    ∃ rest, (∀ e ∈ rest, e.isGeometric = false) ∧
      (misalign col ic config a s).events =
        s.events ++
        (if ic.applyXShifts || ic.applyYShifts || ic.applyZShifts then
          [Event.move a (col.toGlobal (s.heap.surfaces a)
            (drawDisplacement col ic config s).1)]
         else []) ++
        (if ic.applyXRots || ic.applyYRots || ic.applyZRots then
          [Event.rotateInLocalFrame a (col.toMatrix
            (drawEulerAngles col ic config (drawDisplacement col ic config s).2).1)]
         else []) ++
        (if ic.applyCurl then
          [Event.rotateAroundGlobalZ a (ic.curlConst * col.perp
            ((if ic.applyXRots || ic.applyYRots || ic.applyZRots then
                col.rotateInLocalFrame a (col.toMatrix
                  (drawEulerAngles col ic config (drawDisplacement col ic config s).2).1)
                  (if ic.applyXShifts || ic.applyYShifts || ic.applyZShifts then
                    col.move a (col.toGlobal (s.heap.surfaces a)
                      (drawDisplacement col ic config s).1) s.heap.surfaces
                   else s.heap.surfaces)
              else
                (if ic.applyXShifts || ic.applyYShifts || ic.applyZShifts then
                  col.move a (col.toGlobal (s.heap.surfaces a)
                    (drawDisplacement col ic config s).1) s.heap.surfaces
                 else s.heap.surfaces)) a))]
         else []) ++ rest := by
  obtain ⟨d1, d2⟩ := drawDisplacement_state col ic config s
  obtain ⟨f1, f2, f3, f4⟩ := applyShift_state col ic a (drawDisplacement col ic config s).1
    (drawDisplacement col ic config s).2
  obtain ⟨g1, g2⟩ := drawEulerAngles_state col ic config
    (applyShift col ic a (drawDisplacement col ic config s).1
      (drawDisplacement col ic config s).2)
  have hangles := drawEulerAngles_congr col ic config
    (applyShift col ic a (drawDisplacement col ic config s).1
      (drawDisplacement col ic config s).2) (drawDisplacement col ic config s).2 f1 f2
  obtain ⟨r1, r2⟩ := applyRotation_state col ic a
    (drawEulerAngles col ic config (applyShift col ic a (drawDisplacement col ic config s).1
      (drawDisplacement col ic config s).2)).1
    (drawEulerAngles col ic config (applyShift col ic a (drawDisplacement col ic config s).1
      (drawDisplacement col ic config s).2)).2
  have hcurl := applyCurlRotation_events col ic a
    (applyRotation col ic a
      (drawEulerAngles col ic config (applyShift col ic a (drawDisplacement col ic config s).1
        (drawDisplacement col ic config s).2)).1
      (drawEulerAngles col ic config (applyShift col ic a (drawDisplacement col ic config s).1
        (drawDisplacement col ic config s).2)).2)
  obtain ⟨rest, hrest, hape⟩ := addStartPositionError_events col ic config a
    (applyCurlRotation col ic a (applyRotation col ic a
      (drawEulerAngles col ic config (applyShift col ic a (drawDisplacement col ic config s).1
        (drawDisplacement col ic config s).2)).1
      (drawEulerAngles col ic config (applyShift col ic a (drawDisplacement col ic config s).1
        (drawDisplacement col ic config s).2)).2))
  refine ⟨rest, hrest, ?_⟩
  have hmis : (misalign col ic config a s).events =
      (addStartPositionError col ic config a (applyCurlRotation col ic a
        (applyRotation col ic a
          (drawEulerAngles col ic config (applyShift col ic a
            (drawDisplacement col ic config s).1 (drawDisplacement col ic config s).2)).1
          (drawEulerAngles col ic config (applyShift col ic a
            (drawDisplacement col ic config s).1
            (drawDisplacement col ic config s).2)).2))).events := rfl
  rw [hmis, hape, hcurl, r2, r1, g1, g2, f3, f4, d1, d2, hangles]
  rfl

/-! ## Initialization: the parameter slot in the apply-from-file step -/

/-- C13 (the code at the failing input): `ApplyErrorFromFile` is on, module 1 is selected,
has a rigid-body snapshot record and no parameter slot.  The apply-from-file step runs
for module 1 and ends in the access through its null parameter slot at line 444; so does
the whole rule. -/
theorem apply_from_file_accesses_null_slot :
    (slotHeap []).alignmentParameters 1 = none ∧
    (sampleRule false false false true).applyCovar = true ∧
    mapFind 1 [(1, [sampleRecord 1 .rigidBody])] = some [sampleRecord 1 .rigidBody] ∧
    (applyFromFile (sampleInitCollaborators [sampleRecord 1 .rigidBody])
      (sampleRule false false false true) [(1, [sampleRecord 1 .rigidBody])] 1
      (startState (sampleInitialization false (sampleRule false false false true))
        (slotHeap []))).nullAccess? = some 1 ∧
    (initializeRule (sampleInitCollaborators [sampleRecord 1 .rigidBody]) (fun _ => [1])
      (sampleInitialization false (sampleRule false false false true)) 2 "rule"
      (startState (sampleInitialization false (sampleRule false false false true))
        (slotHeap []))).nullAccess? = some 1 := by
  refine ⟨?_, ?_, ?_, ?_, ?_⟩ <;> with_unfolding_all rfl

/-! ## Pointer level: what the steps do to the store -/

theorem bind_eq_ok {α β : Type} (r : InitResult α) (f : α → InitResult β) (b : β)
    (hb : r.bind f = .ok b) : ∃ a, r = .ok a ∧ f a = .ok b := by
  cases r with
  | ok a => exact ⟨a, rfl, hb⟩
  | raised e => simp [InitResult.bind] at hb
  | nullAccess a => simp [InitResult.bind] at hb
  | unfinished => simp [InitResult.bind] at hb

theorem preserves_refl (n : Nat) (st : ObjectStore) : Preserves n st st :=
  ⟨fun _ _ => rfl, fun _ => Or.inl rfl, le_refl _⟩

theorem preserves_trans (n : Nat) (st st1 st2 : ObjectStore) (h1 : Preserves n st st1)
    (h2 : Preserves n st1 st2) : Preserves n st st2 := by
  obtain ⟨a1, a2, a3⟩ := h1
  obtain ⟨b1, b2, b3⟩ := h2
  refine ⟨fun o ho => (b1 o ho).trans (a1 o ho), fun m => ?_, le_trans a3 b3⟩
  rcases b2 m with hb | hb
  · rw [hb]
    exact a2 m
  · exact Or.inr hb

theorem preserves_allocate (n : Nat) (st : ObjectStore) (p : AlignmentParameters)
    (hn : n ≤ st.next) :
    Preserves n st (st.allocate p).2 ∧ n ≤ (st.allocate p).1 ∧
      st.next ≤ (st.allocate p).2.next := by
  refine ⟨⟨fun o ho => ?_, fun _ => Or.inl rfl, Nat.le_succ _⟩, hn, Nat.le_succ _⟩
  have hne : o ≠ st.next := by omega
  simp [ObjectStore.allocate, hne]

theorem preserves_write (n : Nat) (st : ObjectStore) (o : Nat) (p : AlignmentParameters)
    (ho : n ≤ o) : Preserves n st (st.write o p) := by
  refine ⟨fun x hx => ?_, fun _ => Or.inl rfl, le_refl _⟩
  have hne : x ≠ o := by omega
  simp [ObjectStore.write, hne]

theorem preserves_install (n : Nat) (st : ObjectStore) (a o : Nat) (ho : n ≤ o) :
    Preserves n st (st.install a o) := by
  refine ⟨fun _ _ => rfl, fun m => ?_, le_refl _⟩
  by_cases hm : m = a
  · exact Or.inr ⟨o, ho, by simp [ObjectStore.install, hm]⟩
  · exact Or.inl (by simp [ObjectStore.install, hm])

theorem mapAbove_mapPushBack (n k v : Nat) (m : List (Nat × List Nat)) (hm : MapAbove n m)
    (hv : n ≤ v) : MapAbove n (mapPushBack k v m) := by
  induction m with
  | nil =>
    intro e he o ho
    simp only [mapPushBack, List.mem_singleton] at he
    subst he
    simp only [List.mem_singleton] at ho
    omega
  | cons a m ih =>
    obtain ⟨k1, vs⟩ := a
    have hhead : ∀ o ∈ vs, n ≤ o := hm (k1, vs) (List.mem_cons_self _ _)
    have htail : MapAbove n m := fun e he => hm e (List.mem_cons_of_mem _ he)
    intro e he o ho
    simp only [mapPushBack] at he
    split_ifs at he with h1 h2
    · rcases List.mem_cons.1 he with rfl | he
      · simp only [List.mem_singleton] at ho
        omega
      · exact hm e he o ho
    · rcases List.mem_cons.1 he with rfl | he
      · rcases List.mem_append.1 ho with ho | ho
        · exact hhead o ho
        · simp only [List.mem_singleton] at ho
          omega
      · exact htail e he o ho
    · rcases List.mem_cons.1 he with rfl | he
      · exact hhead o ho
      · exact ih htail e he o ho

theorem mem_of_mapFind {α : Type} (k : Nat) (m : List (Nat × List α)) (vs : List α)
    (hk : mapFind k m = some vs) : (k, vs) ∈ m := by
  induction m with
  | nil => simp [mapFind] at hk
  | cons a m ih =>
    obtain ⟨k1, ws⟩ := a
    simp only [mapFind] at hk
    split_ifs at hk with h1
    · simp only [Option.some.injEq] at hk
      subst h1
      subst hk
      exact List.mem_cons_self _ _
    · exact List.mem_cons_of_mem _ (ih hk)

theorem back_above (n a : Nat) (m : List (Nat × List Nat)) (hm : MapAbove n m)
    (records : List Nat) (back : Nat) (hfind : mapFind a m = some records)
    (hback : records.getLast? = some back) : n ≤ back :=
  hm (a, records) (mem_of_mapFind a m records hfind) back (List.mem_of_getLast?_eq_some hback)

theorem pushRecords_preserves (n : Nat) (records : List AlignmentParameters)
    (m : List (Nat × List Nat)) (st : ObjectStore) (hn : n ≤ st.next) (hm : MapAbove n m) :
    Preserves n st (pushRecords records m st).2 ∧ MapAbove n (pushRecords records m st).1 := by
  induction records generalizing m st with
  | nil => exact ⟨preserves_refl n st, hm⟩
  | cons p rest ih =>
    obtain ⟨a1, a2, a3⟩ := preserves_allocate n st p hn
    obtain ⟨b1, b2⟩ := ih (mapPushBack p.alignable (st.allocate p).1 m) (st.allocate p).2
      (le_trans hn a3) (mapAbove_mapPushBack n _ _ m hm a2)
    exact ⟨preserves_trans n _ _ _ a1 b1, b2⟩

theorem readLoopObjects_preserves (n : Nat) (col : InitCollaborators) (alignables : List Nat)
    (file : String) (fuel iter : Nat) (m m1 : List (Nat × List Nat)) (s s1 : ObjectState)
    (hn : n ≤ s.store.next) (hm : MapAbove n m)
    (hload : readLoopObjects col alignables file fuel iter m s = .ok (m1, s1)) :
    Preserves n s.store s1.store ∧ MapAbove n m1 := by
  induction fuel generalizing iter m s with
  | zero => simp [readLoopObjects] at hload
  | succ fuel ih =>
    rw [readLoopObjects] at hload
    obtain ⟨a1, a2⟩ := pushRecords_preserves n
      (col.readAlignmentParameters alignables file iter).1 m s.store hn hm
    by_cases hz : (col.readAlignmentParameters alignables file iter).2 = 0
    · simp only [hz, if_true] at hload
      obtain ⟨b1, b2⟩ := ih _ _ _ (le_trans hn a1.2.2) a2 hload
      exact ⟨preserves_trans n _ _ _ a1 b1, b2⟩
    · simp only [hz, if_false, InitResult.ok.injEq, Prod.mk.injEq] at hload
      obtain ⟨k1, k2⟩ := hload
      rw [← k1, ← k2]
      exact ⟨a1, a2⟩

theorem loadSnapshotObjects_preserves (n : Nat) (col : InitCollaborators)
    (config : RuleConfiguration) (fuel : Nat) (alignables : List Nat)
    (m1 : List (Nat × List Nat)) (s s1 : ObjectState) (hn : n ≤ s.store.next)
    (hload : loadSnapshotObjects col config fuel alignables s = .ok (m1, s1)) :
    Preserves n s.store s1.store ∧ MapAbove n m1 := by
  unfold loadSnapshotObjects at hload
  by_cases ht : (config.readParam || config.readCovar || config.applyParam ||
      config.applyCovar) = true
  · rw [if_pos ht] at hload
    exact readLoopObjects_preserves n col alignables config.file fuel 1 [] m1 s s1 hn
      (fun e he => absurd he (List.not_mem_nil _)) hload
  · rw [if_neg ht] at hload
    simp only [InitResult.ok.injEq, Prod.mk.injEq] at hload
    obtain ⟨k1, k2⟩ := hload
    rw [← k1, ← k2]
    exact ⟨preserves_refl n _, fun e he => absurd he (List.not_mem_nil _)⟩

theorem defaultObject_preserves (n : Nat) (col : InitCollaborators)
    (ic : InitializationConfiguration) (config : RuleConfiguration) (a : Nat)
    (current : AlignmentParameters) (st : ObjectStore) (hn : n ≤ st.next) :
    Preserves n st (defaultObject col ic config a current st).2 ∧
      n ≤ (defaultObject col ic config a current st).1 := by
  obtain ⟨a1, a2, -⟩ :=
    preserves_allocate n st (current.clone startParameters config.startError) hn
  exact ⟨preserves_trans n _ _ _ a1 (preserves_write n _ _ _ a2), a2⟩

theorem seedObject_preserves (n : Nat) (col : InitCollaborators)
    (ic : InitializationConfiguration) (config : RuleConfiguration)
    (map : List (Nat × List Nat)) (a : Nat) (current : AlignmentParameters)
    (st st1 : ObjectStore) (addr : Nat) (hn : n ≤ st.next) (hm : MapAbove n map)
    (h : seedObject col ic config map a current st = .ok (addr, st1)) :
    Preserves n st st1 ∧ n ≤ addr := by
  have hdef := defaultObject_preserves n col ic config a current st hn
  have hdefault : InitResult.ok (defaultObject col ic config a current st) = .ok (addr, st1) →
      Preserves n st st1 ∧ n ≤ addr := by
    intro heq
    simp only [InitResult.ok.injEq] at heq
    rw [heq] at hdef
    exact hdef
  unfold seedObject at h
  by_cases c1 : (config.readParam && config.readCovar) = true
  · rw [if_pos c1] at h
    cases hfind : mapFind a map with
    | none =>
      simp only [hfind] at h
      exact hdefault h
    | some records =>
      cases hlast : records.getLast? with
      | none => simp [hfind, hlast] at h
      | some back =>
        have hback := back_above n a map hm records back hfind hlast
        cases hobj : st.objects back with
        | none => simp [hfind, hlast, hobj] at h
        | some record =>
          simp only [hfind, hlast, hobj, InitResult.ok.injEq, Prod.mk.injEq] at h
          obtain ⟨k1, k2⟩ := h
          rw [← k1, ← k2]
          exact ⟨preserves_write n _ _ _ hback, hback⟩
  · rw [if_neg c1] at h
    by_cases c2 : config.readParam = true
    · rw [if_pos c2] at h
      cases hfind : mapFind a map with
      | none =>
        simp only [hfind] at h
        exact hdefault h
      | some records =>
        cases hlast : records.getLast? with
        | none => simp [hfind, hlast] at h
        | some back =>
          cases hobj : st.objects back with
          | none => simp [hfind, hlast, hobj] at h
          | some record =>
            simp only [hfind, hlast, hobj, InitResult.ok.injEq, Prod.mk.injEq] at h
            obtain ⟨k1, k2⟩ := h
            obtain ⟨a1, a2, -⟩ := preserves_allocate n st
              (current.clone record.parameters config.startError) hn
            rw [← k1, ← k2]
            exact ⟨preserves_trans n _ _ _ a1 (preserves_write n _ _ _ a2), a2⟩
    · rw [if_neg c2] at h
      exact hdefault h

theorem randomStartObject_preserves (n : Nat) (col : InitCollaborators)
    (ic : InitializationConfiguration) (config : RuleConfiguration) (a addr : Nat)
    (s s1 : ObjectState) (hn : n ≤ s.store.next)
    (h : randomStartObject col ic config a addr s = .ok s1) :
    Preserves n s.store s1.store := by
  unfold randomStartObject at h
  by_cases c1 : ic.applyRandomStartValues = true
  · rw [if_pos c1] at h
    cases hobj : s.store.objects addr with
    | none => simp [hobj] at h
    | some seeded =>
      cases hslot : s.store.slot a with
      | none => simp [hobj, hslot] at h
      | some installed =>
        cases hatt : s.store.objects installed with
        | none => simp [hobj, hslot, hatt] at h
        | some attached =>
          simp only [hobj, hslot, hatt, InitResult.ok.injEq] at h
          obtain ⟨a1, a2, -⟩ := preserves_allocate n s.store
            (attached.clone (perturb col config.randSig 0 seeded.parameters s.init).1
              seeded.covariance) hn
          rw [← h]
          exact preserves_trans n _ _ _ a1 (preserves_install n _ _ _ a2)
  · rw [if_neg c1] at h
    simp only [InitResult.ok.injEq] at h
    rw [← h]
    exact preserves_refl n _

theorem seedAlignableObjects_preserves (n : Nat) (col : InitCollaborators)
    (ic : InitializationConfiguration) (config : RuleConfiguration)
    (map : List (Nat × List Nat)) (a : Nat) (s s1 : ObjectState) (hn : n ≤ s.store.next)
    (hm : MapAbove n map) (h : seedAlignableObjects col ic config map a s = .ok s1) :
    Preserves n s.store s1.store ∧
      (s1.store.slot a = none ∨ ∃ o, n ≤ o ∧ s1.store.slot a = some o) := by
  unfold seedAlignableObjects at h
  cases hslot : s.store.slot a with
  | none =>
    simp only [hslot, InitResult.ok.injEq] at h
    rw [← h]
    exact ⟨preserves_refl n _, Or.inl hslot⟩
  | some attached =>
    cases hobj : s.store.objects attached with
    | none => simp [hslot, hobj] at h
    | some current =>
      simp only [hslot, hobj] at h
      obtain ⟨seeded, h1, h2⟩ := bind_eq_ok _ _ _ h
      obtain ⟨addr, st1⟩ := seeded
      obtain ⟨a1, a2⟩ := seedObject_preserves n col ic config map a current s.store st1 addr
        hn hm h1
      have a3 := preserves_install n st1 a addr a2
      have hn2 : n ≤ (st1.install a addr).next := le_trans hn a1.2.2
      have a4 := randomStartObject_preserves n col ic config a addr
        ⟨s.init, st1.install a addr⟩ s1 hn2 h2
      refine ⟨preserves_trans n _ _ _ a1 (preserves_trans n _ _ _ a3 a4), ?_⟩
      rcases a4.2.1 a with hkeep | hfresh
      · right
        exact ⟨addr, a2, by rw [hkeep]; simp [ObjectStore.install]⟩
      · exact Or.inr hfresh

theorem applyRecordObjects_store (col : InitCollaborators) (config : RuleConfiguration)
    (a : Nat) (records : List Nat) (s s1 : ObjectState)
    (h : applyRecordObjects col config a records s = .ok s1) : s1.store = s.store := by
  induction records generalizing s with
  | nil =>
    simp only [applyRecordObjects, InitResult.ok.injEq] at h
    rw [← h]
  | cons r rest ih =>
    rw [applyRecordObjects] at h
    cases hobj : s.store.objects r with
    | none => simp [hobj] at h
    | some record =>
      cases hkind : record.kind with
      | otherKind tag => simp [hobj, hkind] at h
      | rigidBody =>
        simp only [hobj, hkind] at h
        have hrest := ih _ h
        exact hrest

theorem flagObject_preserves (n a : Nat) (s s1 : ObjectState)
    (hslot : s.store.slot a = none ∨ ∃ o, n ≤ o ∧ s.store.slot a = some o)
    (h : flagObject a s = .ok s1) : Preserves n s.store s1.store := by
  unfold flagObject at h
  rcases hslot with hnone | ⟨o, ho, hsome⟩
  · simp [hnone] at h
  · cases hobj : s.store.objects o with
    | none => simp [hsome, hobj] at h
    | some p =>
      cases huv : p.kalmanUserVariables with
      | none =>
        simp only [hsome, hobj, huv, InitResult.ok.injEq] at h
        rw [← h]
        exact preserves_refl n _
      | some uv =>
        simp only [hsome, hobj, huv, InitResult.ok.injEq] at h
        rw [← h]
        exact preserves_write n _ _ _ ho

theorem applyFromFileObjects_preserves (n : Nat) (col : InitCollaborators)
    (config : RuleConfiguration) (map : List (Nat × List Nat)) (a : Nat) (s s1 : ObjectState)
    (hslot : s.store.slot a = none ∨ ∃ o, n ≤ o ∧ s.store.slot a = some o)
    (h : applyFromFileObjects col config map a s = .ok s1) :
    Preserves n s.store s1.store := by
  unfold applyFromFileObjects at h
  by_cases c1 : (config.applyParam || config.applyCovar) = true
  · rw [if_pos c1] at h
    cases hfind : mapFind a map with
    | none =>
      simp only [hfind, InitResult.ok.injEq] at h
      rw [← h]
      exact preserves_refl n _
    | some records =>
      simp only [hfind] at h
      obtain ⟨s2, h1, h2⟩ := bind_eq_ok _ _ _ h
      have hstore := applyRecordObjects_store col config a records s s2 h1
      rw [← hstore] at hslot ⊢
      exact flagObject_preserves n a s2 s1 hslot h2
  · rw [if_neg c1] at h
    simp only [InitResult.ok.injEq] at h
    rw [← h]
    exact preserves_refl n _

theorem initializeAlignableObjects_preserves (n : Nat) (col : InitCollaborators)
    (ic : InitializationConfiguration) (config : RuleConfiguration)
    (map : List (Nat × List Nat)) (a : Nat) (s s1 : ObjectState) (hn : n ≤ s.store.next)
    (hm : MapAbove n map) (h : initializeAlignableObjects col ic config map a s = .ok s1) :
    Preserves n s.store s1.store := by
  unfold initializeAlignableObjects at h
  obtain ⟨s2, h1, h2⟩ := bind_eq_ok _ _ _ h
  obtain ⟨a1, a2⟩ := seedAlignableObjects_preserves n col ic config map a
    ⟨misalign col ic config a s.init, s.store⟩ s2 hn hm h1
  exact preserves_trans n _ _ _ a1 (applyFromFileObjects_preserves n col config map a s2 s1 a2 h2)

theorem initializeAlignablesObjects_preserves (n : Nat) (col : InitCollaborators)
    (ic : InitializationConfiguration) (config : RuleConfiguration)
    (map : List (Nat × List Nat)) (alignables : List Nat) (s s1 : ObjectState)
    (hn : n ≤ s.store.next) (hm : MapAbove n map)
    (h : initializeAlignablesObjects col ic config map alignables s = .ok s1) :
    Preserves n s.store s1.store := by
  induction alignables generalizing s with
  | nil =>
    simp only [initializeAlignablesObjects, InitResult.ok.injEq] at h
    rw [← h]
    exact preserves_refl n _
  | cons a rest ih =>
    rw [initializeAlignablesObjects] at h
    obtain ⟨s2, h1, h2⟩ := bind_eq_ok _ _ _ h
    have a1 := initializeAlignableObjects_preserves n col ic config map a s s2 hn hm h1
    exact preserves_trans n _ _ _ a1 (ih s2 (le_trans hn a1.2.2) h2)

theorem initializeRuleObjects_preserves (col : InitCollaborators)
    (sel : List String → List Nat) (ic : InitializationConfiguration) (fuel : Nat)
    (rule : String) (s s1 : ObjectState)
    (h : initializeRuleObjects col sel ic fuel rule s = .ok s1) :
    Preserves s.store.next s.store s1.store := by
  unfold initializeRuleObjects at h
  obtain ⟨loaded, h1, h2⟩ := bind_eq_ok _ _ _ h
  obtain ⟨map, s2⟩ := loaded
  obtain ⟨s3, h3, h4⟩ := bind_eq_ok _ _ _ h2
  obtain ⟨a1, a2⟩ := loadSnapshotObjects_preserves s.store.next col (ic.rule rule) fuel _ map
    ⟨{ s.init with selection := s.init.selection ++ (ic.rule rule).AlignableSelection },
      s.store⟩ s2 (le_refl _) h1
  have a3 := initializeAlignablesObjects_preserves s.store.next col ic (ic.rule rule) map _
    s2 s3 a1.2.2 a2 h3
  simp only [InitResult.ok.injEq] at h4
  rw [← h4]
  exact preserves_trans _ _ _ _ a1 a3

/-- C12: in the pointer-level embedding, for a rule that runs to its end from a store in
which every attached parameters object lies below the allocation frontier: every object
that was attached to a module before the rule has, after the rule, exactly the content it
had before (parameter vector, covariance and user variables), whatever the load, seeding,
random-start-value and apply-from-file steps did; and the parameter slot of every module
either still holds the same object or holds an object created during the rule, which is
therefore different from every object that existed before it. -/
theorem rule_never_modifies_attached_parameters (col : InitCollaborators)
    (sel : List String → List Nat) (ic : InitializationConfiguration) (fuel : Nat)
    (rule : String) (s s1 : ObjectState)
    (hwf : ∀ m o, s.store.slot m = some o → o < s.store.next)
    (hrun : initializeRuleObjects col sel ic fuel rule s = .ok s1) :
    (∀ m o, s.store.slot m = some o → s1.store.objects o = s.store.objects o) ∧
    (∀ m, s1.store.slot m = s.store.slot m ∨
      ∃ o, s.store.next ≤ o ∧ s1.store.slot m = some o) := by
  obtain ⟨a1, a2, -⟩ := initializeRuleObjects_preserves col sel ic fuel rule s s1 hrun
  exact ⟨fun m o hslot => a1 o (hwf m o hslot), a2⟩

/-- Witness for C12: module 1 holds the object at address 0, all four read/apply toggles
are on and the snapshot holds one rigid-body record for module 1. -/
theorem rule_never_modifies_attached_parameters_witness :
    ∃ s1, initializeRuleObjects (sampleInitCollaborators [sampleRecord 1 .rigidBody])
        (fun _ => [1]) (sampleInitialization false (sampleRule true true true true)) 2 "rule"
        ⟨startState (sampleInitialization false (sampleRule true true true true))
          (slotHeap [1]), sampleStore⟩ = .ok s1 ∧
      (∀ m o, sampleStore.slot m = some o → s1.store.objects o = sampleStore.objects o) ∧
      (∀ m, s1.store.slot m = sampleStore.slot m ∨
        ∃ o, sampleStore.next ≤ o ∧ s1.store.slot m = some o) := by
  have hsome : (initializeRuleObjects (sampleInitCollaborators [sampleRecord 1 .rigidBody])
      (fun _ => [1]) (sampleInitialization false (sampleRule true true true true)) 2 "rule"
      ⟨startState (sampleInitialization false (sampleRule true true true true))
        (slotHeap [1]), sampleStore⟩).value?.isSome = true := by
    with_unfolding_all rfl
  have hwf : ∀ m o, sampleStore.slot m = some o → o < sampleStore.next := by
    intro m o hslot
    simp only [sampleStore] at hslot ⊢
    split_ifs at hslot
    simp only [Option.some.injEq] at hslot
    omega
  cases hrun : initializeRuleObjects (sampleInitCollaborators [sampleRecord 1 .rigidBody])
      (fun _ => [1]) (sampleInitialization false (sampleRule true true true true)) 2 "rule"
      ⟨startState (sampleInitialization false (sampleRule true true true true))
        (slotHeap [1]), sampleStore⟩ with
  | ok s1 =>
    exact ⟨s1, rfl, rule_never_modifies_attached_parameters _ _ _ _ _ _ s1 hwf hrun⟩
  | raised e =>
    rw [hrun] at hsome
    exact Bool.noConfusion hsome
  | nullAccess a =>
    rw [hrun] at hsome
    exact Bool.noConfusion hsome
  | unfinished =>
    rw [hrun] at hsome
    exact Bool.noConfusion hsome

end KalmanAlignment
